import Mathlib

/-!
# fallingGame.cpp: a shallow embedding

The program is a single translation unit: a set of global variables, the
functions `SpawnFallingObject`, `CheckCollisionPlayer`, `StartGame`,
`UpdateGame`, the quote callbacks `FetchQuoteSuccess` / `FetchQuoteFail` /
`FetchQuote`, and the frame loop of `main`.

Conventions of the embedding.

* The mutable globals (`player`, `fallingObjects`, `gameState`, `quote`,
  `spawnTimer`) are the fields of `Game`; every function is a pure function
  `Game → Game`.
* `playerSpeed` and `spawnInterval` are globals that are initialised and never
  assigned by any statement of the program; they are the constants
  `playerSpeed` and `spawnInterval`.
* The program is embedded twice. In `Game`, `UpdateGame` and the definitions
  around them a `float` is an exact rational (`ℚ`); on this embedding stand the
  statements about control flow, the store, the screens and the strings, none of
  which uses a fact of arithmetic that binary32 lacks. In `Game32`,
  `UpdateGame32` and the definitions around them a `float` is an IEEE 754
  binary32 value (`F32`): every sum, difference and product is rounded to
  nearest, ties to even, with overflow to infinity and with NaN; on this
  embedding stand the statements about the arithmetic itself (the clamp of
  `player.x`, the new `rect.y`, the frame on which the timer is due).
* `std::string` is a list of characters; `std::string::npos` is `none`.
* What the program reads from outside is an explicit argument: the frame time
  `dt`, the key states and the random source (`Input`), the response body of a
  fetch.
* The build variant (`PLATFORM_WEB` defined or not) is the Boolean `web`.
* Calls are counted by a second copy of the collision loop, `checkCollisionsSpy`,
  that returns what it called next to the globals and is proved to compute the
  same globals as `checkCollisions`.
-/

namespace FallingGame

/-! ## Globals -/

/-- Window width, `const int screenWidth = 800`. -/
def screenWidth : Int := 800

/-- Window height, `const int screenHeight = 600`. -/
def screenHeight : Int := 600

/-- The `Rectangle` of raylib.h: four floats. -/
structure Rectangle where
  x : ℚ
  y : ℚ
  width : ℚ
  height : ℚ
deriving DecidableEq

/-- A falling object: `struct FallingObject { Rectangle rect; float speed; }`. -/
structure FallingObject where
  rect : Rectangle
  speed : ℚ
deriving DecidableEq

/-- The three screens: `enum GameState { START, PLAYING, GAME_OVER }`. -/
inductive GameState where
  | START
  | PLAYING
  | GAME_OVER
deriving DecidableEq

/-- Horizontal speed of the player, `float playerSpeed = 400.0f` (never assigned). -/
def playerSpeed : ℚ := 400

/-- Seconds between two spawns, `float spawnInterval = 1.0f` (never assigned). -/
def spawnInterval : ℚ := 1

/-- The mutable globals of the program, together with the one effect the program
has on the outside that is not a draw call: `fetchRequests` counts the
`emscripten_fetch` requests issued so far (web build only). -/
structure Game where
  player : Rectangle
  fallingObjects : List FallingObject
  gameState : GameState
  quote : List Char
  spawnTimer : ℚ
  fetchRequests : Nat
deriving DecidableEq

/-- The text `quote` is initialised with. -/
def pendingPlaceholder : List Char := "Fetching inspirational quote...".toList

/-- The globals as their initialisers leave them, before `main` runs. -/
def initialGame : Game :=
  { player := { x := ((screenWidth / 2 - 25 : Int) : ℚ),
                y := ((screenHeight - 60 : Int) : ℚ),
                width := 50, height := 50 }
    fallingObjects := []
    gameState := GameState.START
    quote := pendingPlaceholder
    spawnTimer := 0
    fetchRequests := 0 }

/-- What one frame reads from raylib. `rand k a b` is the value returned by the
`k`-th call of `GetRandomValue` in the frame, made with arguments `(a, b)`. -/
structure Input where
  keyLeft : Bool
  keyRight : Bool
  spacePressed : Bool
  rPressed : Bool
  rand : Nat → Int → Int → Int

/-- The contract of raylib's `GetRandomValue(a, b)`: a value in `a..b`, both ends
included. -/
def RandInRange (rand : Nat → Int → Int → Int) : Prop :=
  ∀ k a b, a ≤ b → a ≤ rand k a b ∧ rand k a b ≤ b

/-! ## Strings -/

/-- Search loop of `std::string::find`: `rest` is the text from offset `i` on. -/
def findAux (pat : List Char) : List Char → Nat → Option Nat
  | [], i => if pat = [] then some i else none
  | c :: cs, i => if pat.isPrefixOf (c :: cs) then some i else findAux pat cs (i + 1)

/-- The call `s.find(pat, pos)` of `std::string`: the least offset `i ≥ pos` at
which `pat` occurs in `s`, and `none` (for `npos`) when there is none. -/
def find (s pat : List Char) (pos : Nat) : Option Nat :=
  if s.length < pos then none else findAux pat (s.drop pos) pos

/-- The call `s.substr(pos, n)` of `std::string`, for `pos ≤ s.size()`. -/
def substr (s : List Char) (pos n : Nat) : List Char :=
  (s.drop pos).take n

/-- The first marker searched for, `"content":"` with its quotes. -/
def contentMarker : List Char := "\"content\":\"".toList

/-- The second marker searched for, `"author":"` with its quotes. -/
def authorMarker : List Char := "\"author\":\"".toList

/-- The text written when a marker is missing. -/
def parseFailure : List Char := "Failed to parse quote.".toList

/-- The text written by the error callback. -/
def fetchFailure : List Char := "Failed to fetch quote.".toList

/-- The quote of the desktop build. -/
def desktopQuote : List Char :=
  ("\"The only limit to our realization of tomorrow is our doubts of today.\"" ++
    "\n- Franklin D. Roosevelt").toList

/-! ## Quote callbacks (web build) -/

/-- The success callback `FetchQuoteSuccess`, on the response body `jsonStr`. -/
def FetchQuoteSuccess (jsonStr : List Char) (g : Game) : Game :=
  match find jsonStr contentMarker 0, find jsonStr authorMarker 0 with
  | some contentPos0, some authorPos0 =>
    let contentPos := contentPos0 + 10
    let authorPos := authorPos0 + 9
    match find jsonStr ['"'] contentPos, find jsonStr ['"'] authorPos with
    | some contentEnd, some authorEnd =>
      let content := substr jsonStr contentPos (contentEnd - contentPos)
      let author := substr jsonStr authorPos (authorEnd - authorPos)
      { g with quote := ['"'] ++ content ++ "\"\n- ".toList ++ author }
    | _, _ => g
  | _, _ => { g with quote := parseFailure }

/-- The error callback `FetchQuoteFail`. -/
def FetchQuoteFail (g : Game) : Game :=
  { g with quote := fetchFailure }

/-- The function `FetchQuote`: the web build issues a request and returns, the
desktop build assigns a fixed quote. -/
def FetchQuote (web : Bool) (g : Game) : Game :=
  if web then { g with fetchRequests := g.fetchRequests + 1 }
  else { g with quote := desktopQuote }

/-! ## Simulation -/

/-- The cast `(int)` of a float: truncation towards zero. -/
def truncToInt (q : ℚ) : Int := if 0 ≤ q then ⌊q⌋ else ⌈q⌉

/-- The object built by `SpawnFallingObject` from three draws of the random source. -/
def spawnedObject (rand : Nat → Int → Int → Int) : FallingObject :=
  let size : ℚ := ((30 + rand 0 0 20 : Int) : ℚ)
  let x : ℚ := ((rand 1 0 (screenWidth - truncToInt size) : Int) : ℚ)
  let speed : ℚ := ((150 + rand 2 0 150 : Int) : ℚ)
  { rect := { x := x, y := -size, width := size, height := size }, speed := speed }

/-- The function `SpawnFallingObject`: push the new object at the back of the store. -/
def SpawnFallingObject (rand : Nat → Int → Int → Int) (g : Game) : Game :=
  { g with fallingObjects := g.fallingObjects ++ [spawnedObject rand] }

/-- Modelled from the spec: `CheckCollisionRecs` of the raylib library, which is
not part of this repository's sources. The standard AABB test: the two rectangles
have a non-empty intersection on both axes, with strict comparisons, so that
rectangles that only touch do not collide. -/
def CheckCollisionRecs (rec1 rec2 : Rectangle) : Bool :=
  decide ((rec1.x < rec2.x + rec2.width ∧ rec1.x + rec1.width > rec2.x) ∧
    (rec1.y < rec2.y + rec2.height ∧ rec1.y + rec1.height > rec2.y))

/-- The function `CheckCollisionPlayer`. -/
def CheckCollisionPlayer (g : Game) (obj : Rectangle) : Bool :=
  CheckCollisionRecs g.player obj

/-- The function `StartGame`. -/
def StartGame (g : Game) : Game :=
  { g with
    fallingObjects := []
    player := { g.player with x := ((screenWidth / 2 : Int) : ℚ) - g.player.width / 2 }
    spawnTimer := 0
    quote := []
    gameState := GameState.PLAYING }

/-- First block of `UpdateGame`: move the player with the arrow keys, then clamp it
inside the screen. The arithmetic is exact here; `movePlayer32` is the same block
with every operation rounded to binary32. -/
def movePlayer (dt : ℚ) (inp : Input) (p : Rectangle) : Rectangle :=
  let p := if inp.keyLeft then { p with x := p.x - playerSpeed * dt } else p
  let p := if inp.keyRight then { p with x := p.x + playerSpeed * dt } else p
  let p := if p.x < 0 then { p with x := 0 } else p
  if p.x + p.width > (screenWidth : ℚ) then { p with x := (screenWidth : ℚ) - p.width } else p

/-- Second block of `UpdateGame`: accumulate the timer and spawn when it is due.
The sum is exact here; `spawnOverTime32` stores and tests the binary32 sum. -/
def spawnOverTime (dt : ℚ) (inp : Input) (g : Game) : Game :=
  let g := { g with spawnTimer := g.spawnTimer + dt }
  if g.spawnTimer ≥ spawnInterval then
    SpawnFallingObject inp.rand { g with spawnTimer := 0 }
  else g

/-- Body of the position loop of `UpdateGame`, on one object. The arithmetic is
exact here; `advance32` rounds the product and the sum to binary32. -/
def advance (dt : ℚ) (obj : FallingObject) : FallingObject :=
  { obj with rect := { obj.rect with y := obj.rect.y + obj.speed * dt } }

/-- The predicate handed to `std::remove_if`: the object fell off the screen. -/
def offScreen (obj : FallingObject) : Bool :=
  decide (obj.rect.y > (screenHeight : ℚ))

/-- The collision loop of `UpdateGame` over the objects still to visit: the first
hit sets `GAME_OVER`, calls `FetchQuote` and leaves the loop. -/
def checkCollisions (web : Bool) (g : Game) : List FallingObject → Game
  | [] => g
  | obj :: rest =>
    if CheckCollisionPlayer g obj.rect then
      FetchQuote web { g with gameState := GameState.GAME_OVER }
    else checkCollisions web g rest

/-- The function `UpdateGame(dt)`. -/
def UpdateGame (web : Bool) (dt : ℚ) (inp : Input) (g : Game) : Game :=
  let g := { g with player := movePlayer dt inp g.player }
  let g := spawnOverTime dt inp g
  let g := { g with fallingObjects := g.fallingObjects.map (advance dt) }
  let g := { g with fallingObjects := g.fallingObjects.filter (fun obj => !offScreen obj) }
  checkCollisions web g g.fallingObjects

/-- The collision loop of `UpdateGame` under a call-count spy: next to the globals
it returns the rectangles handed to `CheckCollisionPlayer`, in call order, and the
number of calls of `FetchQuote`. -/
def checkCollisionsSpy (web : Bool) (g : Game) :
    List FallingObject → Game × List Rectangle × Nat
  | [] => (g, [], 0)
  | obj :: rest =>
    if CheckCollisionPlayer g obj.rect then
      (FetchQuote web { g with gameState := GameState.GAME_OVER }, [obj.rect], 1)
    else
      let r := checkCollisionsSpy web g rest
      (r.1, obj.rect :: r.2.1, r.2.2)

/-- The function `UpdateGame(dt)` under the call-count spy of `checkCollisionsSpy`. -/
def UpdateGameSpy (web : Bool) (dt : ℚ) (inp : Input) (g : Game) :
    Game × List Rectangle × Nat :=
  let g := { g with player := movePlayer dt inp g.player }
  let g := spawnOverTime dt inp g
  let g := { g with fallingObjects := g.fallingObjects.map (advance dt) }
  let g := { g with fallingObjects := g.fallingObjects.filter (fun obj => !offScreen obj) }
  checkCollisionsSpy web g g.fallingObjects

/-- One iteration of the loop of `main`, drawing left out (it reads the globals
and writes none). -/
def mainLoopIteration (web : Bool) (dt : ℚ) (inp : Input) (g : Game) : Game :=
  match g.gameState with
  | GameState.START => if inp.spacePressed then StartGame g else g
  | GameState.PLAYING => UpdateGame web dt inp g
  | GameState.GAME_OVER =>
    if inp.rPressed then { g with gameState := GameState.START, quote := [] } else g

/-- A run of the frame loop: one `(dt, input)` pair per iteration, oldest first. -/
def runFrames (web : Bool) : List (ℚ × Input) → Game → Game
  | [], g => g
  | (dt, inp) :: rest, g => runFrames web rest (mainLoopIteration web dt inp g)

/-! ## Binary32 arithmetic

The claims about the arithmetic itself (the clamp of `player.x`, the value of
`rect.y` after a frame, the frame on which `spawnTimer` reaches `spawnInterval`)
are settled on the `float` of the program: IEEE 754 binary32, every operation
rounded to nearest, ties to even, with infinities and NaN. Each operation of the
source is rounded on its own: no fused multiply-add and no wider intermediate
format, as on WebAssembly and on x86-64 with SSE. -/

/-- A binary32 value: not-a-number, an infinity (`neg` is its sign bit) or a finite
value. The sign of zero is not tracked: the program only adds, subtracts,
multiplies and compares, and none of these tells `-0` from `+0`. -/
inductive F32 where
  | nan
  | inf (neg : Bool)
  | fin (q : ℚ)
deriving DecidableEq

/-- The power `2 ^ k` for an integer exponent. -/
def pow2 (k : Int) : ℚ :=
  if 0 ≤ k then ((2 ^ k.toNat : Nat) : ℚ) else 1 / ((2 ^ (-k).toNat : Nat) : ℚ)

/-- The number of halvings that bring `n` below 2, counted with `fuel` steps at
most. -/
def halvings : Nat → Nat → Nat
  | 0, _ => 0
  | fuel + 1, n => if n < 2 then 0 else halvings fuel (n / 2) + 1

/-- The binary logarithm of a natural number, rounded down (0 at 0). -/
def log2Nat (n : Nat) : Nat := halvings n n

/-- The binary exponent of a positive rational: the greatest `k` with `2 ^ k ≤ a`. -/
def floorLog2 (a : ℚ) : Int :=
  let k : Int := (log2Nat a.num.natAbs : Int) - (log2Nat a.den : Int)
  if pow2 k ≤ a then k else k - 1

/-- Rounding to the nearest integer, ties to the even one. -/
def roundHalfEven (x : ℚ) : Int :=
  let f : Int := ⌊x⌋
  if x - f < 1 / 2 then f
  else if 1 / 2 < x - f then f + 1
  else if f % 2 = 0 then f else f + 1

/-- Rounding of a positive magnitude to 24 significant bits, to nearest, ties to
even; below `2 ^ (-126)` the spacing stays `2 ^ (-149)` (gradual underflow). -/
def roundMagnitude (a : ℚ) : ℚ :=
  let e : Int := max (floorLog2 a) (-126)
  let ulp : ℚ := pow2 (e - 23)
  (roundHalfEven (a / ulp) : ℚ) * ulp

/-- Rounding of an exact result to binary32, to nearest, ties to even, with
overflow to infinity when the rounded magnitude reaches `2 ^ 128`. -/
def round32 (q : ℚ) : F32 :=
  if q = 0 then F32.fin 0
  else if pow2 128 ≤ roundMagnitude |q| then F32.inf (decide (q < 0))
  else F32.fin (if q < 0 then -roundMagnitude |q| else roundMagnitude |q|)

/-- The conversion of an `int` to `float`. -/
def F32.ofInt (n : Int) : F32 := round32 (n : ℚ)

/-- Unary minus. -/
def F32.neg : F32 → F32
  | F32.nan => F32.nan
  | F32.inf s => F32.inf (!s)
  | F32.fin q => F32.fin (-q)

/-- Addition: `inf - inf` is NaN, a finite sum is rounded. -/
def F32.add : F32 → F32 → F32
  | F32.nan, _ => F32.nan
  | _, F32.nan => F32.nan
  | F32.inf s, F32.inf t => if s = t then F32.inf s else F32.nan
  | F32.inf s, F32.fin _ => F32.inf s
  | F32.fin _, F32.inf t => F32.inf t
  | F32.fin a, F32.fin b => round32 (a + b)

/-- Subtraction. -/
def F32.sub (a b : F32) : F32 := F32.add a (F32.neg b)

/-- Multiplication: `0 * inf` is NaN, a finite product is rounded. -/
def F32.mul : F32 → F32 → F32
  | F32.nan, _ => F32.nan
  | _, F32.nan => F32.nan
  | F32.inf s, F32.inf t => F32.inf (s != t)
  | F32.inf s, F32.fin b => if b = 0 then F32.nan else F32.inf (s != decide (b < 0))
  | F32.fin a, F32.inf t => if a = 0 then F32.nan else F32.inf (decide (a < 0) != t)
  | F32.fin a, F32.fin b => round32 (a * b)

/-- The comparison `a < b`: false as soon as one side is NaN. -/
def F32.lt : F32 → F32 → Bool
  | F32.nan, _ => false
  | _, F32.nan => false
  | F32.inf s, F32.inf t => s && !t
  | F32.inf s, F32.fin _ => s
  | F32.fin _, F32.inf t => !t
  | F32.fin a, F32.fin b => decide (a < b)

/-- The comparison `a <= b`: false as soon as one side is NaN. -/
def F32.le : F32 → F32 → Bool
  | F32.nan, _ => false
  | _, F32.nan => false
  | F32.inf s, F32.inf t => s || !t
  | F32.inf s, F32.fin _ => s
  | F32.fin _, F32.inf t => !t
  | F32.fin a, F32.fin b => decide (a ≤ b)

/-- A value a binary32 variable can hold: NaN, an infinity, or a finite value that
rounding leaves as it is. -/
def F32.IsValue : F32 → Prop
  | F32.nan => True
  | F32.inf _ => True
  | F32.fin q => round32 q = F32.fin q

/-- Whether a value is one a binary32 variable can hold is decided by rounding it. -/
instance F32.decIsValue (a : F32) : Decidable a.IsValue := by
  cases a <;> simp only [F32.IsValue] <;> infer_instance

/-! ## The simulation in binary32 -/

/-- The `Rectangle` of raylib.h with its four binary32 fields. -/
structure Rectangle32 where
  x : F32
  y : F32
  width : F32
  height : F32
deriving DecidableEq

/-- The `struct FallingObject` with binary32 fields. -/
structure FallingObject32 where
  rect : Rectangle32
  speed : F32
deriving DecidableEq

/-- The mutable globals with binary32 fields; `fetchRequests` is as in `Game`. -/
structure Game32 where
  player : Rectangle32
  fallingObjects : List FallingObject32
  gameState : GameState
  quote : List Char
  spawnTimer : F32
  fetchRequests : Nat
deriving DecidableEq

/-- The global `float playerSpeed = 400.0f`. -/
def playerSpeed32 : F32 := F32.fin 400

/-- The global `float spawnInterval = 1.0f`. -/
def spawnInterval32 : F32 := F32.fin 1

/-- The globals as their initialisers leave them. -/
def initialGame32 : Game32 :=
  { player := { x := F32.ofInt (screenWidth / 2 - 25), y := F32.ofInt (screenHeight - 60),
                width := F32.ofInt 50, height := F32.ofInt 50 }
    fallingObjects := []
    gameState := GameState.START
    quote := pendingPlaceholder
    spawnTimer := F32.ofInt 0
    fetchRequests := 0 }

/-- The function `FetchQuote` on the binary32 globals. -/
def FetchQuote32 (web : Bool) (g : Game32) : Game32 :=
  if web then { g with fetchRequests := g.fetchRequests + 1 }
  else { g with quote := desktopQuote }

/-- The cast `(int)` of a finite float: truncation towards zero. The cast of NaN
or of an infinity is undefined in C++; the program only casts `size`, which is
finite. -/
def truncToInt32 : F32 → Int
  | F32.fin q => truncToInt q
  | _ => 0

/-- The object built by `SpawnFallingObject`, in binary32. -/
def spawnedObject32 (rand : Nat → Int → Int → Int) : FallingObject32 :=
  let size : F32 := F32.ofInt (30 + rand 0 0 20)
  let x : F32 := F32.ofInt (rand 1 0 (screenWidth - truncToInt32 size))
  let speed : F32 := F32.ofInt (150 + rand 2 0 150)
  { rect := { x := x, y := F32.neg size, width := size, height := size }, speed := speed }

/-- The function `SpawnFallingObject` on the binary32 globals. -/
def SpawnFallingObject32 (rand : Nat → Int → Int → Int) (g : Game32) : Game32 :=
  { g with fallingObjects := g.fallingObjects ++ [spawnedObject32 rand] }

/-- Modelled from the spec: `CheckCollisionRecs` of the raylib library, with the
sums it compares computed in binary32. -/
def CheckCollisionRecs32 (rec1 rec2 : Rectangle32) : Bool :=
  (F32.lt rec1.x (F32.add rec2.x rec2.width) && F32.lt rec2.x (F32.add rec1.x rec1.width)) &&
    (F32.lt rec1.y (F32.add rec2.y rec2.height) && F32.lt rec2.y (F32.add rec1.y rec1.height))

/-- The function `CheckCollisionPlayer` on the binary32 globals. -/
def CheckCollisionPlayer32 (g : Game32) (obj : Rectangle32) : Bool :=
  CheckCollisionRecs32 g.player obj

/-- The two key statements of `UpdateGame`: `player.x -= playerSpeed * dt` and
`player.x += playerSpeed * dt`, each product and each sum rounded. -/
def moveKeys32 (dt : F32) (inp : Input) (p : Rectangle32) : Rectangle32 :=
  let p := if inp.keyLeft then { p with x := F32.sub p.x (F32.mul playerSpeed32 dt) } else p
  if inp.keyRight then { p with x := F32.add p.x (F32.mul playerSpeed32 dt) } else p

/-- The two clamp statements of `UpdateGame`: `if (player.x < 0) player.x = 0` and
`if (player.x + player.width > screenWidth) player.x = screenWidth - player.width`. -/
def clamp32 (p : Rectangle32) : Rectangle32 :=
  let p := if F32.lt p.x (F32.ofInt 0) then { p with x := F32.ofInt 0 } else p
  if F32.lt (F32.ofInt screenWidth) (F32.add p.x p.width)
  then { p with x := F32.sub (F32.ofInt screenWidth) p.width } else p

/-- First block of `UpdateGame` in binary32: move, then clamp. -/
def movePlayer32 (dt : F32) (inp : Input) (p : Rectangle32) : Rectangle32 :=
  clamp32 (moveKeys32 dt inp p)

/-- Second block of `UpdateGame` in binary32: `spawnTimer += dt` stores the rounded
sum, and the test reads the stored value. -/
def spawnOverTime32 (dt : F32) (inp : Input) (g : Game32) : Game32 :=
  let g := { g with spawnTimer := F32.add g.spawnTimer dt }
  if F32.le spawnInterval32 g.spawnTimer then
    SpawnFallingObject32 inp.rand { g with spawnTimer := F32.ofInt 0 }
  else g

/-- Body of the position loop in binary32: `rect.y += speed * dt`, the product
rounded and then the sum rounded. -/
def advance32 (dt : F32) (obj : FallingObject32) : FallingObject32 :=
  { obj with rect := { obj.rect with y := F32.add obj.rect.y (F32.mul obj.speed dt) } }

/-- The predicate handed to `std::remove_if`, in binary32. -/
def offScreen32 (obj : FallingObject32) : Bool :=
  F32.lt (F32.ofInt screenHeight) obj.rect.y

/-- The collision loop of `UpdateGame` on the binary32 globals. -/
def checkCollisions32 (web : Bool) (g : Game32) : List FallingObject32 → Game32
  | [] => g
  | obj :: rest =>
    if CheckCollisionPlayer32 g obj.rect then
      FetchQuote32 web { g with gameState := GameState.GAME_OVER }
    else checkCollisions32 web g rest

/-- The function `UpdateGame(dt)` in binary32. -/
def UpdateGame32 (web : Bool) (dt : F32) (inp : Input) (g : Game32) : Game32 :=
  let g := { g with player := movePlayer32 dt inp g.player }
  let g := spawnOverTime32 dt inp g
  let g := { g with fallingObjects := g.fallingObjects.map (advance32 dt) }
  let g := { g with fallingObjects := g.fallingObjects.filter (fun obj => !offScreen32 obj) }
  checkCollisions32 web g g.fallingObjects

/-! ## Sample inputs -/

/-- A random source that answers the lower bound to the first call of a frame, the
midpoint to the second and the upper bound to the others. -/
def sampleRand (k : Nat) (a b : Int) : Int :=
  if k = 0 then a else if k = 1 then (a + b) / 2 else b

/-- A random source that always answers the upper bound. -/
def drawMax (_ : Nat) (_ b : Int) : Int := b

/-- A frame with no key down. -/
def noKeys : Input :=
  { keyLeft := false, keyRight := false, spacePressed := false, rPressed := false,
    rand := sampleRand }

/-- A frame with LEFT held. -/
def leftHeld : Input := { noKeys with keyLeft := true }

/-- A frame in which SPACE is pressed. -/
def spaceFrame : Input := { noKeys with spacePressed := true }

/-- An object about to leave the screen. -/
def edgeObject : FallingObject :=
  { rect := { x := 10, y := 590, width := 30, height := 30 }, speed := 100 }

/-- A game in progress with `edgeObject` as its only object. -/
def oneFalling : Game :=
  { initialGame with
    fallingObjects := [edgeObject]
    gameState := GameState.PLAYING }

/-- An object that reaches the player within a tenth of a second. -/
def highObject : FallingObject :=
  { rect := { x := 380, y := 500, width := 30, height := 30 }, speed := 200 }

/-- A game in progress with `highObject` as its only object. -/
def oneOnPlayer : Game :=
  { initialGame with
    fallingObjects := [highObject]
    gameState := GameState.PLAYING }

/-- A second object on the player, lower than `highObject`. -/
def lowObject : FallingObject :=
  { rect := { x := 390, y := 530, width := 40, height := 40 }, speed := 150 }

/-- A game in progress with two objects on the player. -/
def twoOnPlayer : Game :=
  { oneOnPlayer with fallingObjects := oneOnPlayer.fallingObjects ++ [lowObject] }

/-- A well-formed response body: `{"content":"Hi","author":"Me"}`. -/
def sampleBody : List Char := "\x7b\"content\":\"Hi\",\"author\":\"Me\"\x7d".toList

/-- A shortest round: SPACE, then two frames of one second; the object spawned in
the first one falls onto the player in the second. -/
def sampleRound : List (ℚ × Input) := [(1 / 60, spaceFrame), (1, noKeys), (1, noKeys)]

/-- A frame with LEFT and RIGHT both held. -/
def bothKeys : Input := { noKeys with keyLeft := true, keyRight := true }

/-- The frame time `1e38f`. -/
def dtHuge : F32 := F32.fin 99999996802856924650656260769173209088

/-- The frame time `0.016666668f`, one sixtieth of a second. -/
def dtSixtieth : F32 := F32.fin (8947849 / 536870912)

/-- The frame time `0.016666681f`. -/
def dtLong : F32 := F32.fin (559241 / 33554432)

/-- A binary32 game in progress, the player centred (`x = 375`). -/
def playing32 : Game32 := { initialGame32 with gameState := GameState.PLAYING }

/-- A binary32 game in progress with the player against the left edge. -/
def atLeftEdge32 : Game32 :=
  { playing32 with player := { playing32.player with x := F32.fin 0 } }

/-- A binary32 game in progress whose timer is `0.98333329f`. -/
def nearInterval32 : Game32 := { playing32 with spawnTimer := F32.fin (16497595 / 16777216) }

/-- An object just spawned, of speed 151. -/
def freshObject32 : FallingObject32 :=
  { rect := { x := F32.fin 100, y := F32.fin (-30), width := F32.fin 30, height := F32.fin 30 },
    speed := F32.fin 151 }

/-- A binary32 game in progress with `freshObject32` as its only object. -/
def oneFresh32 : Game32 := { playing32 with fallingObjects := [freshObject32] }

/-- An object of speed 150 at `y = 597.5`. -/
def lateObject32 : FallingObject32 :=
  { rect := { x := F32.fin 100, y := F32.fin (1195 / 2), width := F32.fin 30,
              height := F32.fin 30 },
    speed := F32.fin 150 }

/-- A binary32 game in progress with `lateObject32` as its only object. -/
def oneLate32 : Game32 := { playing32 with fallingObjects := [lateObject32] }

/-- A player of width 799.5 just right of `x = 0.5`. -/
def widePlayer32 : Rectangle32 :=
  { x := F32.fin (1 / 2 + 1 / 16777216), y := F32.fin 540, width := F32.fin (1599 / 2),
    height := F32.fin 50 }

/-- A binary32 game in progress whose player is `widePlayer32`. -/
def wideGame32 : Game32 := { playing32 with player := widePlayer32 }

/-! ## Frame lemmas -/

theorem FetchQuote_frame (web : Bool) (g : Game) :
    (FetchQuote web g).player = g.player ∧
    (FetchQuote web g).fallingObjects = g.fallingObjects ∧
    (FetchQuote web g).spawnTimer = g.spawnTimer ∧
    (FetchQuote web g).gameState = g.gameState := by
  cases web <;> simp [FetchQuote]

theorem checkCollisions_frame (web : Bool) (g : Game) (objs : List FallingObject) :
    (checkCollisions web g objs).player = g.player ∧
    (checkCollisions web g objs).fallingObjects = g.fallingObjects ∧
    (checkCollisions web g objs).spawnTimer = g.spawnTimer := by
  induction objs with
  | nil => simp [checkCollisions]
  | cons obj rest ih =>
    unfold checkCollisions
    split_ifs
    · obtain ⟨h1, h2, h3, _⟩ := FetchQuote_frame web { g with gameState := GameState.GAME_OVER }
      exact ⟨h1, h2, h3⟩
    · exact ih

theorem checkCollisions_gameState (web : Bool) (g : Game) (objs : List FallingObject) :
    (checkCollisions web g objs).gameState =
      if objs.any (fun obj => CheckCollisionPlayer g obj.rect) then GameState.GAME_OVER
      else g.gameState := by
  induction objs with
  | nil => simp [checkCollisions]
  | cons obj rest ih =>
    unfold checkCollisions
    by_cases h : CheckCollisionPlayer g obj.rect = true
    · simp [h, (FetchQuote_frame web { g with gameState := GameState.GAME_OVER }).2.2.2]
    · simp [h, ih]

theorem spawnOverTime_frame (dt : ℚ) (inp : Input) (g : Game) :
    (spawnOverTime dt inp g).player = g.player ∧
    (spawnOverTime dt inp g).gameState = g.gameState ∧
    (spawnOverTime dt inp g).quote = g.quote := by
  unfold spawnOverTime
  simp only []
  split_ifs <;> simp [SpawnFallingObject]

/-- The globals when the collision loop of `UpdateGame` starts. -/
theorem UpdateGame_eq (web : Bool) (dt : ℚ) (inp : Input) (g : Game) :
    UpdateGame web dt inp g =
      checkCollisions web
        { player := movePlayer dt inp g.player
          fallingObjects := ((spawnOverTime dt inp g).fallingObjects.map (advance dt)).filter
            (fun obj => !offScreen obj)
          gameState := g.gameState
          quote := g.quote
          spawnTimer := (spawnOverTime dt inp g).spawnTimer
          fetchRequests := g.fetchRequests }
        (((spawnOverTime dt inp g).fallingObjects.map (advance dt)).filter
            (fun obj => !offScreen obj)) := by
  unfold UpdateGame spawnOverTime
  simp only []
  split_ifs <;> simp [SpawnFallingObject]

theorem UpdateGame_player (web : Bool) (dt : ℚ) (inp : Input) (g : Game) :
    (UpdateGame web dt inp g).player = movePlayer dt inp g.player := by
  rw [UpdateGame_eq, (checkCollisions_frame _ _ _).1]

theorem UpdateGame_fallingObjects (web : Bool) (dt : ℚ) (inp : Input) (g : Game) :
    (UpdateGame web dt inp g).fallingObjects =
      ((spawnOverTime dt inp g).fallingObjects.map (advance dt)).filter
        (fun obj => !offScreen obj) := by
  rw [UpdateGame_eq, (checkCollisions_frame _ _ _).2.1]

theorem UpdateGame_spawnTimer (web : Bool) (dt : ℚ) (inp : Input) (g : Game) :
    (UpdateGame web dt inp g).spawnTimer = (spawnOverTime dt inp g).spawnTimer := by
  rw [UpdateGame_eq, (checkCollisions_frame _ _ _).2.2]

theorem UpdateGame_gameState (web : Bool) (dt : ℚ) (inp : Input) (g : Game) :
    (UpdateGame web dt inp g).gameState =
      if (UpdateGame web dt inp g).fallingObjects.any
          (fun obj => CheckCollisionRecs (UpdateGame web dt inp g).player obj.rect)
      then GameState.GAME_OVER else g.gameState := by
  rw [UpdateGame_player, UpdateGame_fallingObjects, UpdateGame_eq, checkCollisions_gameState]
  rfl

/-! ## Player movement -/

theorem movePlayer_frame (dt : ℚ) (inp : Input) (p : Rectangle) :
    (movePlayer dt inp p).y = p.y ∧ (movePlayer dt inp p).width = p.width ∧
    (movePlayer dt inp p).height = p.height := by
  unfold movePlayer
  simp only []
  split_ifs <;> simp

/-! ## Collision and game over -/

/-- C2. From a `PLAYING` state, after `UpdateGame(dt)` the game state is `GAME_OVER`
exactly when some object left in the store by the advance-and-prune step overlaps
the player at its moved-and-clamped position, and it is still `PLAYING`
otherwise. -/
theorem UpdateGame_gameOver_iff_collision (web : Bool) (dt : ℚ) (inp : Input) (g : Game)
    (hp : g.gameState = GameState.PLAYING) :
    ((UpdateGame web dt inp g).gameState = GameState.GAME_OVER ↔
      ∃ obj ∈ (UpdateGame web dt inp g).fallingObjects,
        CheckCollisionPlayer (UpdateGame web dt inp g) obj.rect = true) ∧
    ((¬ ∃ obj ∈ (UpdateGame web dt inp g).fallingObjects,
        CheckCollisionPlayer (UpdateGame web dt inp g) obj.rect = true) →
      (UpdateGame web dt inp g).gameState = GameState.PLAYING) ∧
    (UpdateGame web dt inp g).player = movePlayer dt inp g.player ∧
    (UpdateGame web dt inp g).fallingObjects =
      ((spawnOverTime dt inp g).fallingObjects.map (advance dt)).filter
        (fun obj => !offScreen obj) := by
  refine ⟨?_, ?_, UpdateGame_player web dt inp g, UpdateGame_fallingObjects web dt inp g⟩
  · rw [UpdateGame_gameState, hp]
    unfold CheckCollisionPlayer
    split_ifs with h
    · simpa [List.any_eq_true] using h
    · simpa [List.any_eq_true] using h
  · intro hno
    rw [UpdateGame_gameState, hp]
    unfold CheckCollisionPlayer at hno
    rw [if_neg]
    simpa [List.any_eq_true] using hno

/-- The equivalence of C2 on a frame in which the only object reaches the player. -/
theorem UpdateGame_gameOver_iff_collision_witness :
    oneOnPlayer.gameState = GameState.PLAYING ∧
    (UpdateGame false (1 / 10) noKeys oneOnPlayer).gameState = GameState.GAME_OVER ∧
    (∃ obj ∈ (UpdateGame false (1 / 10) noKeys oneOnPlayer).fallingObjects,
      CheckCollisionPlayer (UpdateGame false (1 / 10) noKeys oneOnPlayer) obj.rect = true) ∧
    (UpdateGame false (1 / 10) noKeys oneFalling).gameState = GameState.PLAYING :=
  have hover : (UpdateGame false (1 / 10) noKeys oneOnPlayer).gameState =
      GameState.GAME_OVER := by decide!
  have hnone : ¬ ∃ obj ∈ (UpdateGame false (1 / 10) noKeys oneFalling).fallingObjects,
      CheckCollisionPlayer (UpdateGame false (1 / 10) noKeys oneFalling) obj.rect = true := by
    decide!
  ⟨rfl, hover,
    (UpdateGame_gameOver_iff_collision false (1 / 10) noKeys oneOnPlayer rfl).1.mp hover,
    (UpdateGame_gameOver_iff_collision false (1 / 10) noKeys oneFalling rfl).2.1 hnone⟩

/-! ## Advance and prune -/

/-- C7. Whatever the state before, after `StartGame` the game state is `PLAYING`,
the store is empty, `quote` is the empty string, `spawnTimer` is 0 and the player
is centred horizontally, `player.x = screenWidth/2 - player.width/2`, with
`player.y`, `width` and `height` unchanged. -/
theorem StartGame_resets (g : Game) :
    (StartGame g).gameState = GameState.PLAYING ∧
    (StartGame g).fallingObjects = [] ∧
    (StartGame g).quote = [] ∧
    (StartGame g).spawnTimer = 0 ∧
    (StartGame g).player.x = ((screenWidth / 2 : Int) : ℚ) - g.player.width / 2 ∧
    (StartGame g).player.x + (StartGame g).player.width / 2 = (screenWidth : ℚ) / 2 ∧
    (StartGame g).player.y = g.player.y ∧
    (StartGame g).player.width = g.player.width ∧
    (StartGame g).player.height = g.player.height := by
  refine ⟨rfl, rfl, rfl, rfl, rfl, ?_, rfl, rfl, rfl⟩
  simp only [StartGame, screenWidth]
  norm_num

/-! ## The spawned object -/

theorem truncToInt_intCast (n : Int) : truncToInt ((n : Int) : ℚ) = n := by
  unfold truncToInt
  split_ifs <;> simp

theorem sampleRand_inRange : RandInRange sampleRand := by
  intro k a b hab
  unfold sampleRand
  split_ifs <;> constructor <;> omega

theorem drawMax_inRange : RandInRange drawMax := by
  intro k a b hab
  exact ⟨hab, le_refl b⟩

/-- C8, as the code has it. For every outcome of the random source, the object
appended by `SpawnFallingObject` has its size (width and height) in the closed
range `[30, 50]` and its speed in the closed range `[150, 300]`. -/
theorem SpawnFallingObject_size_speed_closed (rand : Nat → Int → Int → Int) (g : Game)
    (hr : RandInRange rand) :
    (SpawnFallingObject rand g).fallingObjects = g.fallingObjects ++ [spawnedObject rand] ∧
    (spawnedObject rand).rect.width = (spawnedObject rand).rect.height ∧
    (30 ≤ (spawnedObject rand).rect.width ∧ (spawnedObject rand).rect.width ≤ 50) ∧
    (150 ≤ (spawnedObject rand).speed ∧ (spawnedObject rand).speed ≤ 300) := by
  obtain ⟨h0, h20⟩ := hr 0 0 20 (by norm_num)
  obtain ⟨h0s, h150⟩ := hr 2 0 150 (by norm_num)
  have c0 : (0 : ℚ) ≤ ((rand 0 0 20 : Int) : ℚ) := by exact_mod_cast h0
  have c20 : ((rand 0 0 20 : Int) : ℚ) ≤ 20 := by exact_mod_cast h20
  have c0s : (0 : ℚ) ≤ ((rand 2 0 150 : Int) : ℚ) := by exact_mod_cast h0s
  have c150 : ((rand 2 0 150 : Int) : ℚ) ≤ 150 := by exact_mod_cast h150
  refine ⟨rfl, rfl, ⟨?_, ?_⟩, ⟨?_, ?_⟩⟩ <;> simp only [spawnedObject] <;>
    push_cast <;> linarith

/-- C8, as the spec has it, fails: when the random source answers the upper bound
of each range, the appended object has size 50 and speed 300, neither of them
strictly below the bound of the half-open range. -/
theorem SpawnFallingObject_size_speed_not_half_open :
    RandInRange drawMax ∧
    (SpawnFallingObject drawMax initialGame).fallingObjects =
      [{ rect := { x := 750, y := -50, width := 50, height := 50 }, speed := 300 }] ∧
    ¬ (spawnedObject drawMax).rect.width < 50 ∧
    ¬ (spawnedObject drawMax).speed < 300 := by
  have hobj : spawnedObject drawMax =
      { rect := { x := 750, y := -50, width := 50, height := 50 }, speed := 300 } := by
    simp only [spawnedObject, drawMax, truncToInt_intCast, screenWidth]
    norm_num
  refine ⟨drawMax_inRange, ?_, ?_, ?_⟩
  · simp [SpawnFallingObject, initialGame, hobj]
  · rw [hobj]
    norm_num
  · rw [hobj]
    norm_num

/-- The closed ranges of C8 at a concrete random source. -/
theorem SpawnFallingObject_size_speed_closed_witness :
    RandInRange sampleRand ∧
    (SpawnFallingObject sampleRand initialGame).fallingObjects =
      initialGame.fallingObjects ++ [spawnedObject sampleRand] ∧
    (spawnedObject sampleRand).rect.width = (spawnedObject sampleRand).rect.height ∧
    (30 ≤ (spawnedObject sampleRand).rect.width ∧ (spawnedObject sampleRand).rect.width ≤ 50) ∧
    (150 ≤ (spawnedObject sampleRand).speed ∧ (spawnedObject sampleRand).speed ≤ 300) :=
  ⟨sampleRand_inRange,
    SpawnFallingObject_size_speed_closed sampleRand initialGame sampleRand_inRange⟩

/-! ## Searching a string -/

theorem findAux_some_occurs (pat : List Char) :
    ∀ (s : List Char) (i j : Nat), findAux pat s i = some j → pat <:+: s := by
  intro s
  induction s with
  | nil =>
    intro i j h
    unfold findAux at h
    split_ifs at h with hp
    rw [hp]
  | cons c cs ih =>
    intro i j h
    unfold findAux at h
    split_ifs at h with hp
    · exact (List.isPrefixOf_iff_prefix.mp hp).isInfix
    · exact (ih (i + 1) j h).trans (List.infix_cons (List.infix_refl cs))

theorem find_absent (s pat : List Char) (h : ¬ pat <:+: s) : find s pat 0 = none := by
  unfold find
  simp only [Nat.not_lt_zero, if_false, List.drop_zero]
  cases hf : findAux pat s 0 with
  | none => rfl
  | some j => exact absurd (findAux_some_occurs pat s 0 j hf) h

/-! ## Quote callbacks -/

/-- C6 on the code. On the body `{"content":"Hi","author":"Me"}`, which has the
shape the claim describes with `C = Hi` and `A = Me`, `FetchQuoteSuccess` leaves
`quote` equal to two double quotes, a newline and `- `: both extracted fields are
empty, because the offsets 10 and 9 added to the marker positions are one short
of the marker lengths 11 and 10. -/
theorem FetchQuoteSuccess_sampleBody_fields_empty :
    sampleBody = ['\x7b'] ++ contentMarker ++ "Hi".toList ++ ['"'] ++ [','] ++
      authorMarker ++ "Me".toList ++ ['"'] ++ ['\x7d'] ∧
    contentMarker.length = 11 ∧ authorMarker.length = 10 ∧
    (FetchQuoteSuccess sampleBody initialGame).quote = "\"\"\n- ".toList ∧
    (FetchQuoteSuccess sampleBody initialGame).quote ≠ "\"Hi\"\n- Me".toList := by
  decide

/-- C10. When at least one of the two markers does not occur in the response
body, `FetchQuoteSuccess` sets `quote` to the fixed text `Failed to parse quote.`,
whatever the body and the previous quote, and that text is not the pending
placeholder; `FetchQuoteFail` sets `quote` to the fixed text
`Failed to fetch quote.`, whatever the previous quote. -/
theorem FetchQuoteSuccess_marker_missing (body : List Char) (g : Game)
    (h : ¬ contentMarker <:+: body ∨ ¬ authorMarker <:+: body) :
    (FetchQuoteSuccess body g).quote = parseFailure ∧
    parseFailure ≠ pendingPlaceholder ∧
    (FetchQuoteFail g).quote = fetchFailure ∧
    fetchFailure ≠ pendingPlaceholder := by
  refine ⟨?_, by decide, rfl, by decide⟩
  unfold FetchQuoteSuccess
  rcases h with h | h
  · rw [find_absent body contentMarker h]
  · rw [find_absent body authorMarker h]
    cases find body contentMarker 0 <;> rfl

/-- The failure texts of C10 on the body `oops`, which has neither marker. -/
theorem FetchQuoteSuccess_marker_missing_witness :
    (¬ contentMarker <:+: "oops".toList ∨ ¬ authorMarker <:+: "oops".toList) ∧
    (FetchQuoteSuccess "oops".toList initialGame).quote = parseFailure ∧
    parseFailure ≠ pendingPlaceholder ∧
    (FetchQuoteFail initialGame).quote = fetchFailure ∧
    fetchFailure ≠ pendingPlaceholder :=
  ⟨Or.inl (by decide),
    FetchQuoteSuccess_marker_missing "oops".toList initialGame (Or.inl (by decide))⟩

/-! ## The quote at game over (web build) -/

theorem UpdateGame_web_quote (dt : ℚ) (inp : Input) (g : Game) :
    (UpdateGame true dt inp g).quote = g.quote := by
  rw [UpdateGame_eq]
  generalize ((spawnOverTime dt inp g).fallingObjects.map (advance dt)).filter
    (fun obj => !offScreen obj) = objs
  generalize (spawnOverTime dt inp g).spawnTimer = t
  suffices hs : ∀ (l : List FallingObject) (g0 : Game),
      (checkCollisions true g0 l).quote = g0.quote from hs objs _
  intro l g0
  induction l with
  | nil => rfl
  | cons obj rest ih =>
    unfold checkCollisions
    split_ifs
    · rfl
    · exact ih

theorem mainLoopIteration_web_quote (dt : ℚ) (inp : Input) (g : Game)
    (h : g.gameState = GameState.START ∨ g.quote = []) :
    (mainLoopIteration true dt inp g).gameState = GameState.START ∨
      (mainLoopIteration true dt inp g).quote = [] := by
  unfold mainLoopIteration
  cases hs : g.gameState with
  | START =>
    simp only []
    split_ifs
    · exact Or.inr rfl
    · exact Or.inl hs
  | PLAYING =>
    simp only []
    rw [UpdateGame_web_quote]
    rcases h with h | h
    · rw [hs] at h
      cases h
    · exact Or.inr h
  | GAME_OVER =>
    simp only []
    split_ifs
    · exact Or.inl rfl
    · rcases h with h | h
      · rw [hs] at h
        cases h
      · exact Or.inr h

/-- In the web build, as long as no fetch callback runs, `quote` is empty whenever
the game-over screen is up: the placeholder `quote` starts with is gone after the
first `StartGame`. -/
theorem runFrames_web_quote (frames : List (ℚ × Input)) (g : Game)
    (h : g.gameState = GameState.START ∨ g.quote = []) :
    (runFrames true frames g).gameState = GameState.START ∨
      (runFrames true frames g).quote = [] := by
  induction frames generalizing g with
  | nil => exact h
  | cons f rest ih =>
    obtain ⟨dt, inp⟩ := f
    exact ih _ (mainLoopIteration_web_quote dt inp g h)

/-- C9 on the code. In the web build, starting from the initial globals, the
round `sampleRound` (SPACE, then two frames of one second) ends in `GAME_OVER`
with one request issued and with `quote` empty: it is not the pending
placeholder. -/
theorem web_round_quote_empty_at_game_over :
    (runFrames true sampleRound initialGame).gameState = GameState.GAME_OVER ∧
    (runFrames true sampleRound initialGame).fetchRequests = 1 ∧
    (runFrames true sampleRound initialGame).quote = [] ∧
    (runFrames true sampleRound initialGame).quote ≠ pendingPlaceholder := by
  decide!

/-! ## The collision loop under a spy -/

theorem checkCollisionsSpy_game (web : Bool) (g : Game) (objs : List FallingObject) :
    (checkCollisionsSpy web g objs).1 = checkCollisions web g objs := by
  induction objs with
  | nil => rfl
  | cons obj rest ih =>
    unfold checkCollisionsSpy checkCollisions
    split_ifs
    · rfl
    · exact ih

theorem checkCollisionsSpy_tested (web : Bool) (g : Game) (objs : List FallingObject) :
    (checkCollisionsSpy web g objs).2.1 =
      (objs.take (objs.findIdx (fun obj => CheckCollisionPlayer g obj.rect) + 1)).map
        (fun obj => obj.rect) := by
  induction objs with
  | nil => rfl
  | cons obj rest ih =>
    unfold checkCollisionsSpy
    rw [List.findIdx_cons]
    by_cases h : CheckCollisionPlayer g obj.rect = true
    · simp [h]
    · simp [h, ih]

theorem checkCollisionsSpy_fetchCalls (web : Bool) (g : Game) (objs : List FallingObject) :
    (checkCollisionsSpy web g objs).2.2 =
      if objs.any (fun obj => CheckCollisionPlayer g obj.rect) then 1 else 0 := by
  induction objs with
  | nil => rfl
  | cons obj rest ih =>
    unfold checkCollisionsSpy
    by_cases h : CheckCollisionPlayer g obj.rect = true
    · simp [h]
    · simp [h, ih]

theorem checkCollisions_fetchRequests (web : Bool) (g : Game) (objs : List FallingObject) :
    (checkCollisions web g objs).fetchRequests ≤ g.fetchRequests + 1 := by
  induction objs with
  | nil => simp [checkCollisions]
  | cons obj rest ih =>
    unfold checkCollisions
    split_ifs
    · cases web <;> simp [FetchQuote]
    · exact ih

theorem UpdateGameSpy_eq (web : Bool) (dt : ℚ) (inp : Input) (g : Game) :
    UpdateGameSpy web dt inp g =
      checkCollisionsSpy web
        { player := movePlayer dt inp g.player
          fallingObjects := ((spawnOverTime dt inp g).fallingObjects.map (advance dt)).filter
            (fun obj => !offScreen obj)
          gameState := g.gameState
          quote := g.quote
          spawnTimer := (spawnOverTime dt inp g).spawnTimer
          fetchRequests := g.fetchRequests }
        (((spawnOverTime dt inp g).fallingObjects.map (advance dt)).filter
            (fun obj => !offScreen obj)) := by
  unfold UpdateGameSpy spawnOverTime
  simp only []
  split_ifs <;> simp [SpawnFallingObject]

/-- C11. In a frame of `UpdateGame`, the collision test is called on the objects
left in the store, in store order, up to and including the first one that
overlaps the player: the number of calls is the index of that object plus one,
or the length of the store when no object overlaps. `FetchQuote` is called at
most once, and exactly once when some object overlaps. -/
theorem UpdateGame_collision_tests_short_circuit (web : Bool) (dt : ℚ) (inp : Input)
    (g : Game) :
    (UpdateGameSpy web dt inp g).1 = UpdateGame web dt inp g ∧
    (UpdateGameSpy web dt inp g).2.1 =
      ((UpdateGame web dt inp g).fallingObjects.take
        ((UpdateGame web dt inp g).fallingObjects.findIdx
          (fun obj => CheckCollisionPlayer (UpdateGame web dt inp g) obj.rect) + 1)).map
        (fun obj => obj.rect) ∧
    ((∃ obj ∈ (UpdateGame web dt inp g).fallingObjects,
        CheckCollisionPlayer (UpdateGame web dt inp g) obj.rect = true) →
      (UpdateGame web dt inp g).fallingObjects.findIdx
          (fun obj => CheckCollisionPlayer (UpdateGame web dt inp g) obj.rect) <
        (UpdateGame web dt inp g).fallingObjects.length ∧
      (UpdateGameSpy web dt inp g).2.1.length =
        (UpdateGame web dt inp g).fallingObjects.findIdx
          (fun obj => CheckCollisionPlayer (UpdateGame web dt inp g) obj.rect) + 1) ∧
    ((¬ ∃ obj ∈ (UpdateGame web dt inp g).fallingObjects,
        CheckCollisionPlayer (UpdateGame web dt inp g) obj.rect = true) →
      (UpdateGameSpy web dt inp g).2.1.length =
        (UpdateGame web dt inp g).fallingObjects.length) ∧
    (UpdateGameSpy web dt inp g).2.2 ≤ 1 ∧
    ((UpdateGameSpy web dt inp g).2.2 = 1 ↔
      ∃ obj ∈ (UpdateGame web dt inp g).fallingObjects,
        CheckCollisionPlayer (UpdateGame web dt inp g) obj.rect = true) ∧
    (UpdateGame web dt inp g).fetchRequests ≤ g.fetchRequests + 1 := by
  have hp : (fun obj : FallingObject =>
      CheckCollisionPlayer (UpdateGame web dt inp g) obj.rect) =
      (fun obj => CheckCollisionRecs (movePlayer dt inp g.player) obj.rect) := by
    funext obj
    unfold CheckCollisionPlayer
    rw [UpdateGame_player]
  have htested : (UpdateGameSpy web dt inp g).2.1 =
      ((UpdateGame web dt inp g).fallingObjects.take
        ((UpdateGame web dt inp g).fallingObjects.findIdx
          (fun obj => CheckCollisionPlayer (UpdateGame web dt inp g) obj.rect) + 1)).map
        (fun obj => obj.rect) := by
    rw [hp, UpdateGame_fallingObjects, UpdateGameSpy_eq, checkCollisionsSpy_tested]
    rfl
  have hcalls : (UpdateGameSpy web dt inp g).2.2 =
      if (UpdateGame web dt inp g).fallingObjects.any
        (fun obj => CheckCollisionPlayer (UpdateGame web dt inp g) obj.rect) then 1 else 0 := by
    rw [hp, UpdateGame_fallingObjects, UpdateGameSpy_eq, checkCollisionsSpy_fetchCalls]
    rfl
  refine ⟨?_, htested, ?_, ?_, ?_, ?_, ?_⟩
  · rw [UpdateGameSpy_eq, UpdateGame_eq, checkCollisionsSpy_game]
  · intro hex
    have hlt := List.findIdx_lt_length_of_exists hex
    refine ⟨hlt, ?_⟩
    rw [htested, List.length_map, List.length_take]
    omega
  · intro hno
    have hlen : (UpdateGame web dt inp g).fallingObjects.findIdx
        (fun obj => CheckCollisionPlayer (UpdateGame web dt inp g) obj.rect) =
        (UpdateGame web dt inp g).fallingObjects.length := by
      apply List.findIdx_eq_length_of_false
      intro obj hobj
      by_contra hc
      exact hno ⟨obj, hobj, by simpa using hc⟩
    rw [htested, List.length_map, List.length_take, hlen]
    omega
  · rw [hcalls]
    split_ifs <;> simp
  · rw [hcalls]
    split_ifs with h
    · simpa [List.any_eq_true] using h
    · simpa [List.any_eq_true] using h
  · rw [UpdateGame_eq]
    exact checkCollisions_fetchRequests web _ _

/-- The scenario of C11: with two objects on the player, one test is made, on the
first of them, and the second one is not tested. -/
theorem UpdateGame_collision_tests_short_circuit_witness :
    (UpdateGame true (1 / 10) noKeys twoOnPlayer).fallingObjects =
      [advance (1 / 10) highObject, advance (1 / 10) lowObject] ∧
    (∀ obj ∈ (UpdateGame true (1 / 10) noKeys twoOnPlayer).fallingObjects,
      CheckCollisionPlayer (UpdateGame true (1 / 10) noKeys twoOnPlayer) obj.rect = true) ∧
    (UpdateGameSpy true (1 / 10) noKeys twoOnPlayer).2.1.length = 1 ∧
    (advance (1 / 10) lowObject).rect ∉ (UpdateGameSpy true (1 / 10) noKeys twoOnPlayer).2.1 ∧
    (UpdateGameSpy true (1 / 10) noKeys twoOnPlayer).2.2 = 1 :=
  have hall : ∀ obj ∈ (UpdateGame true (1 / 10) noKeys twoOnPlayer).fallingObjects,
      CheckCollisionPlayer (UpdateGame true (1 / 10) noKeys twoOnPlayer) obj.rect = true := by
    decide!
  have hex : ∃ obj ∈ (UpdateGame true (1 / 10) noKeys twoOnPlayer).fallingObjects,
      CheckCollisionPlayer (UpdateGame true (1 / 10) noKeys twoOnPlayer) obj.rect = true := by
    decide!
  have hidx : (UpdateGame true (1 / 10) noKeys twoOnPlayer).fallingObjects.findIdx
      (fun obj => CheckCollisionPlayer (UpdateGame true (1 / 10) noKeys twoOnPlayer) obj.rect)
        = 0 := by
    decide!
  have h := UpdateGame_collision_tests_short_circuit true (1 / 10) noKeys twoOnPlayer
  ⟨by decide!, hall, by rw [(h.2.2.1 hex).2, hidx], by decide!, h.2.2.2.2.2.1.mpr hex⟩

/-! ## The screens of the main loop -/

/-- C13. The overlap test is symmetric: `CheckCollisionRecs a b` and
`CheckCollisionRecs b a` agree for all rectangles, so `CheckCollisionPlayer`,
which tests the player against the object, answers as the test of the object
against the player does. -/
theorem CheckCollisionRecs_symmetric (a b : Rectangle) :
    CheckCollisionRecs a b = CheckCollisionRecs b a ∧
    ∀ g : Game, CheckCollisionPlayer g b = CheckCollisionRecs b g.player := by
  have hsymm : ∀ r1 r2 : Rectangle, CheckCollisionRecs r1 r2 = CheckCollisionRecs r2 r1 := by
    intro r1 r2
    unfold CheckCollisionRecs
    rw [Bool.eq_iff_iff]
    simp only [decide_eq_true_eq, gt_iff_lt]
    constructor <;> rintro ⟨⟨h1, h2⟩, h3, h4⟩ <;> exact ⟨⟨h2, h1⟩, h4, h3⟩
  exact ⟨hsymm a b, fun g => hsymm g.player b⟩

/-! ## The two failure texts -/

/-- C14, as the code has it. For every previous state and every response body
lacking a marker, `FetchQuoteSuccess` changes `quote` only, to
`Failed to parse quote.`, and `FetchQuoteFail` changes `quote` only, to
`Failed to fetch quote.`; the two texts are fixed and they differ. -/
theorem fetch_failure_texts_fixed (body : List Char) (g : Game)
    (h : ¬ contentMarker <:+: body ∨ ¬ authorMarker <:+: body) :
    FetchQuoteSuccess body g = { g with quote := parseFailure } ∧
    FetchQuoteFail g = { g with quote := fetchFailure } ∧
    parseFailure = "Failed to parse quote.".toList ∧
    fetchFailure = "Failed to fetch quote.".toList ∧
    (FetchQuoteSuccess body g).quote ≠ (FetchQuoteFail g).quote := by
  have hs : FetchQuoteSuccess body g = { g with quote := parseFailure } := by
    unfold FetchQuoteSuccess
    rcases h with h | h
    · rw [find_absent body contentMarker h]
    · rw [find_absent body authorMarker h]
      cases find body contentMarker 0 <;> rfl
  refine ⟨hs, rfl, rfl, rfl, ?_⟩
  rw [hs]
  show parseFailure ≠ fetchFailure
  decide

/-- C14, as the spec has it, fails: on the body `oops`, which has neither marker,
`FetchQuoteSuccess` leaves `Failed to parse quote.` and `FetchQuoteFail` leaves
`Failed to fetch quote.`. -/
theorem fetch_failures_not_identical :
    (¬ contentMarker <:+: "oops".toList ∧ ¬ authorMarker <:+: "oops".toList) ∧
    (FetchQuoteSuccess "oops".toList initialGame).quote = "Failed to parse quote.".toList ∧
    (FetchQuoteFail initialGame).quote = "Failed to fetch quote.".toList ∧
    (FetchQuoteSuccess "oops".toList initialGame).quote ≠ (FetchQuoteFail initialGame).quote := by
  decide

/-- The two texts of C14 on the body `oops`. -/
theorem fetch_failure_texts_fixed_witness :
    (¬ contentMarker <:+: "oops".toList ∨ ¬ authorMarker <:+: "oops".toList) ∧
    FetchQuoteSuccess "oops".toList initialGame = { initialGame with quote := parseFailure } ∧
    FetchQuoteFail initialGame = { initialGame with quote := fetchFailure } ∧
    parseFailure = "Failed to parse quote.".toList ∧
    fetchFailure = "Failed to fetch quote.".toList ∧
    (FetchQuoteSuccess "oops".toList initialGame).quote ≠ (FetchQuoteFail initialGame).quote :=
  ⟨Or.inl (by decide), fetch_failure_texts_fixed "oops".toList initialGame (Or.inl (by decide))⟩

/-! ## The shape of the spawned object -/

/-- C15. For every outcome of the random source, `SpawnFallingObject` appends one
object and leaves the others as they are; the new object is a square, it fits on
the screen horizontally, `0 ≤ x` and `x + size ≤ screenWidth`, and it starts at
`y = -size`. -/
theorem SpawnFallingObject_square_on_screen (rand : Nat → Int → Int → Int) (g : Game)
    (hr : RandInRange rand) :
    (SpawnFallingObject rand g).fallingObjects = g.fallingObjects ++ [spawnedObject rand] ∧
    (SpawnFallingObject rand g).fallingObjects.length = g.fallingObjects.length + 1 ∧
    (SpawnFallingObject rand g).fallingObjects.take g.fallingObjects.length =
      g.fallingObjects ∧
    (spawnedObject rand).rect.width = (spawnedObject rand).rect.height ∧
    0 ≤ (spawnedObject rand).rect.x ∧
    (spawnedObject rand).rect.x + (spawnedObject rand).rect.width ≤ (screenWidth : ℚ) ∧
    (spawnedObject rand).rect.y = -(spawnedObject rand).rect.width := by
  obtain ⟨h0, h20⟩ := hr 0 0 20 (by norm_num)
  have htr := truncToInt_intCast (30 + rand 0 0 20)
  obtain ⟨hx0, hx1⟩ := hr 1 0 (screenWidth - truncToInt ((30 + rand 0 0 20 : Int) : ℚ))
    (by rw [htr]; unfold screenWidth; omega)
  have c0 : (0 : ℚ) ≤ ((rand 1 0 (screenWidth - truncToInt ((30 + rand 0 0 20 : Int) : ℚ)) :
      Int) : ℚ) := by exact_mod_cast hx0
  have c1 : ((rand 1 0 (screenWidth - truncToInt ((30 + rand 0 0 20 : Int) : ℚ)) : Int) : ℚ) ≤
      ((screenWidth - truncToInt ((30 + rand 0 0 20 : Int) : ℚ) : Int) : ℚ) := by
    exact_mod_cast hx1
  refine ⟨rfl, by simp [SpawnFallingObject], by simp [SpawnFallingObject], rfl, c0, ?_, rfl⟩
  simp only [spawnedObject]
  rw [htr] at c1 ⊢
  push_cast at c1 ⊢
  linarith

/-- The shape of C15 at a concrete random source. -/
theorem SpawnFallingObject_square_on_screen_witness :
    RandInRange sampleRand ∧
    (SpawnFallingObject sampleRand oneFalling).fallingObjects =
      [edgeObject, { rect := { x := 385, y := -30, width := 30, height := 30 }, speed := 300 }] ∧
    (spawnedObject sampleRand).rect.x + (spawnedObject sampleRand).rect.width ≤
      (screenWidth : ℚ) :=
  ⟨sampleRand_inRange, by decide!,
    (SpawnFallingObject_square_on_screen sampleRand oneFalling sampleRand_inRange).2.2.2.2.2.1⟩

/-! ## Where `find` stops -/

theorem findAux_some_at (pat : List Char) :
    ∀ (s : List Char) (i j : Nat), findAux pat s i = some j →
      i ≤ j ∧ pat <+: s.drop (j - i) := by
  intro s
  induction s with
  | nil =>
    intro i j h
    unfold findAux at h
    split_ifs at h with hp
    injection h with hij
    subst hij
    simp [hp]
  | cons c cs ih =>
    intro i j h
    unfold findAux at h
    split_ifs at h with hp
    · injection h with hij
      subst hij
      simpa using List.isPrefixOf_iff_prefix.mp hp
    · obtain ⟨hle, hpre⟩ := ih (i + 1) j h
      refine ⟨by omega, ?_⟩
      have hj : j - i = (j - (i + 1)) + 1 := by omega
      rw [hj, List.drop_succ_cons]
      exact hpre

theorem find_zero_at (s pat : List Char) (p : Nat) (h : find s pat 0 = some p) :
    pat <+: s.drop p := by
  unfold find at h
  simp only [Nat.not_lt_zero, if_false, List.drop_zero] at h
  simpa using (findAux_some_at pat s 0 p h).2

theorem find_quote_here (s rest : List Char) (q : Nat) (h : s.drop q = '"' :: rest) :
    find s ['"'] q = some q := by
  have hlen : ¬ s.length < q := by
    intro hlt
    rw [List.drop_eq_nil_of_le (Nat.le_of_lt hlt)] at h
    cases h
  unfold find
  rw [if_neg hlen, h]
  unfold findAux
  simp

theorem find_quote_after (s pre : List Char) (p : Nat)
    (h : find s (pre ++ ['"']) 0 = some p) :
    find s ['"'] (p + pre.length) = some (p + pre.length) := by
  obtain ⟨t, ht⟩ := find_zero_at s (pre ++ ['"']) p h
  apply find_quote_here s t
  rw [← List.drop_drop, ← ht, List.append_assoc, List.drop_left]
  rfl

/-! ## The success callback always writes -/

theorem find_quote_after_markers (body : List Char) (p q : Nat)
    (hp : find body contentMarker 0 = some p) (hq : find body authorMarker 0 = some q) :
    find body ['"'] (p + 10) = some (p + 10) ∧ find body ['"'] (q + 9) = some (q + 9) := by
  have hc : contentMarker = "\"content\":".toList ++ ['"'] := by decide
  have ha : authorMarker = "\"author\":".toList ++ ['"'] := by decide
  rw [hc] at hp
  rw [ha] at hq
  exact ⟨find_quote_after body _ p hp, find_quote_after body _ q hq⟩

theorem FetchQuoteSuccess_found (body : List Char) (g : Game) (p q : Nat)
    (hp : find body contentMarker 0 = some p) (hq : find body authorMarker 0 = some q) :
    FetchQuoteSuccess body g = { g with quote := "\"\"\n- ".toList } := by
  obtain ⟨hc, ha⟩ := find_quote_after_markers body p q hp hq
  unfold FetchQuoteSuccess
  rw [hp, hq]
  simp only []
  rw [hc, ha]
  simp [substr]

theorem FetchQuoteSuccess_not_found (body : List Char) (g : Game)
    (h : find body contentMarker 0 = none ∨ find body authorMarker 0 = none) :
    FetchQuoteSuccess body g = { g with quote := parseFailure } := by
  unfold FetchQuoteSuccess
  rcases h with h | h
  · rw [h]
  · rw [h]
    cases find body contentMarker 0 <;> rfl

/-- C16. `FetchQuoteSuccess` overwrites `quote` on every response body. Whenever
both markers are found, a double quote is found from each adjusted offset on (it
is the one at the adjusted offset itself), so the branch that leaves `quote` as it
was is never taken: the text left in `quote` does not depend on the previous one,
and it is either the parse-failure text or the assembled quote. -/
theorem FetchQuoteSuccess_always_overwrites (body : List Char) (g : Game) :
    (∀ p q : Nat, find body contentMarker 0 = some p → find body authorMarker 0 = some q →
      find body ['"'] (p + 10) = some (p + 10) ∧ find body ['"'] (q + 9) = some (q + 9)) ∧
    (∀ text : List Char,
      (FetchQuoteSuccess body { g with quote := text }).quote =
        (FetchQuoteSuccess body g).quote) ∧
    ((FetchQuoteSuccess body g).quote = parseFailure ∨
      (FetchQuoteSuccess body g).quote = "\"\"\n- ".toList) := by
  refine ⟨fun p q hp hq => find_quote_after_markers body p q hp hq, ?_, ?_⟩
  · intro text
    cases hp : find body contentMarker 0 with
    | none =>
      rw [FetchQuoteSuccess_not_found body _ (Or.inl hp),
        FetchQuoteSuccess_not_found body _ (Or.inl hp)]
    | some p =>
      cases hq : find body authorMarker 0 with
      | none =>
        rw [FetchQuoteSuccess_not_found body _ (Or.inr hq),
          FetchQuoteSuccess_not_found body _ (Or.inr hq)]
      | some q =>
        rw [FetchQuoteSuccess_found body _ p q hp hq, FetchQuoteSuccess_found body _ p q hp hq]
  · cases hp : find body contentMarker 0 with
    | none => exact Or.inl (by rw [FetchQuoteSuccess_not_found body _ (Or.inl hp)])
    | some p =>
      cases hq : find body authorMarker 0 with
      | none => exact Or.inl (by rw [FetchQuoteSuccess_not_found body _ (Or.inr hq)])
      | some q => exact Or.inr (by rw [FetchQuoteSuccess_found body _ p q hp hq])

/-- The offsets of C16 on the sample body: the markers are found at 1 and 16, and
a double quote is found at 11 and at 25, the adjusted offsets themselves. -/
theorem FetchQuoteSuccess_always_overwrites_witness :
    (find sampleBody contentMarker 0 = some 1 ∧ find sampleBody authorMarker 0 = some 16) ∧
    find sampleBody ['"'] (1 + 10) = some (1 + 10) ∧
    find sampleBody ['"'] (16 + 9) = some (16 + 9) ∧
    (FetchQuoteSuccess sampleBody { initialGame with quote := parseFailure }).quote =
      (FetchQuoteSuccess sampleBody initialGame).quote :=
  have hp : find sampleBody contentMarker 0 = some 1 := by decide
  have hq : find sampleBody authorMarker 0 = some 16 := by decide
  ⟨⟨hp, hq⟩,
    ((FetchQuoteSuccess_always_overwrites sampleBody initialGame).1 1 16 hp hq).1,
    ((FetchQuoteSuccess_always_overwrites sampleBody initialGame).1 1 16 hp hq).2,
    (FetchQuoteSuccess_always_overwrites sampleBody initialGame).2.1 parseFailure⟩

/-! ## What a frame leaves alone -/

theorem checkCollisions_no_hit (web : Bool) (g : Game) (objs : List FallingObject)
    (h : ∀ obj ∈ objs, CheckCollisionPlayer g obj.rect = false) :
    checkCollisions web g objs = g := by
  induction objs with
  | nil => rfl
  | cons obj rest ih =>
    unfold checkCollisions
    rw [h obj (List.mem_cons_self _ _)]
    simp only [Bool.false_eq_true, if_false]
    exact ih (fun o ho => h o (List.mem_cons_of_mem _ ho))

/-- C17. `UpdateGame(dt)` leaves `player.y`, `player.width` and `player.height` as
they were, and leaves `quote` as it was on a frame in which no object overlaps the
player; `playerSpeed` and `spawnInterval`, which no statement assigns, have their
initial values 400 and 1 before and after. An iteration of the main loop in
`START` without SPACE, or in `GAME_OVER` without R, leaves all the globals as
they were. -/
theorem UpdateGame_leaves_alone (web : Bool) (dt : ℚ) (inp : Input) (g : Game) :
    (UpdateGame web dt inp g).player.y = g.player.y ∧
    (UpdateGame web dt inp g).player.width = g.player.width ∧
    (UpdateGame web dt inp g).player.height = g.player.height ∧
    (playerSpeed = 400 ∧ spawnInterval = 1) ∧
    ((¬ ∃ obj ∈ (UpdateGame web dt inp g).fallingObjects,
        CheckCollisionPlayer (UpdateGame web dt inp g) obj.rect = true) →
      (UpdateGame web dt inp g).quote = g.quote) ∧
    (g.gameState = GameState.START → inp.spacePressed = false →
      mainLoopIteration web dt inp g = g) ∧
    (g.gameState = GameState.GAME_OVER → inp.rPressed = false →
      mainLoopIteration web dt inp g = g) := by
  obtain ⟨hy, hw, hh⟩ := movePlayer_frame dt inp g.player
  refine ⟨?_, ?_, ?_, ⟨rfl, rfl⟩, ?_, ?_, ?_⟩
  · rw [UpdateGame_player, hy]
  · rw [UpdateGame_player, hw]
  · rw [UpdateGame_player, hh]
  · intro hno
    rw [UpdateGame_fallingObjects] at hno
    unfold CheckCollisionPlayer at hno
    rw [UpdateGame_player] at hno
    rw [UpdateGame_eq, checkCollisions_no_hit]
    intro obj hobj
    by_contra hc
    exact hno ⟨obj, hobj, by simpa [CheckCollisionPlayer] using hc⟩
  · intro hs hsp
    unfold mainLoopIteration
    rw [hs]
    simp [hsp]
  · intro hs hr
    unfold mainLoopIteration
    rw [hs]
    simp [hr]

/-- The frames of C17 on concrete games: a frame without a hit keeps the quote, a
frame in `START` without SPACE and a frame in `GAME_OVER` without R change
nothing. -/
theorem UpdateGame_leaves_alone_witness :
    (UpdateGame false (1 / 10) noKeys oneFalling).quote = oneFalling.quote ∧
    mainLoopIteration true (1 / 60) noKeys initialGame = initialGame ∧
    mainLoopIteration true (1 / 60) noKeys (runFrames true sampleRound initialGame) =
      runFrames true sampleRound initialGame :=
  have hnone : ¬ ∃ obj ∈ (UpdateGame false (1 / 10) noKeys oneFalling).fallingObjects,
      CheckCollisionPlayer (UpdateGame false (1 / 10) noKeys oneFalling) obj.rect = true := by
    decide!
  have hover : (runFrames true sampleRound initialGame).gameState = GameState.GAME_OVER := by
    decide!
  ⟨(UpdateGame_leaves_alone false (1 / 10) noKeys oneFalling).2.2.2.2.1 hnone,
    (UpdateGame_leaves_alone true (1 / 60) noKeys initialGame).2.2.2.2.2.1 rfl rfl,
    (UpdateGame_leaves_alone true (1 / 60) noKeys
      (runFrames true sampleRound initialGame)).2.2.2.2.2.2 hover rfl⟩

/-! ## Frame lemmas in binary32 -/

theorem checkCollisions32_frame (web : Bool) (g : Game32) (objs : List FallingObject32) :
    (checkCollisions32 web g objs).player = g.player ∧
    (checkCollisions32 web g objs).fallingObjects = g.fallingObjects ∧
    (checkCollisions32 web g objs).spawnTimer = g.spawnTimer := by
  induction objs with
  | nil => simp [checkCollisions32]
  | cons obj rest ih =>
    unfold checkCollisions32
    split_ifs
    · cases web <;> simp [FetchQuote32]
    · exact ih

theorem spawnOverTime32_due (dt : F32) (inp : Input) (g : Game32)
    (h : F32.le spawnInterval32 (F32.add g.spawnTimer dt) = true) :
    (spawnOverTime32 dt inp g).fallingObjects =
      g.fallingObjects ++ [spawnedObject32 inp.rand] ∧
    (spawnOverTime32 dt inp g).spawnTimer = F32.ofInt 0 := by
  unfold spawnOverTime32
  simp only []
  rw [if_pos h]
  simp [SpawnFallingObject32]

theorem spawnOverTime32_not_due (dt : F32) (inp : Input) (g : Game32)
    (h : ¬ F32.le spawnInterval32 (F32.add g.spawnTimer dt) = true) :
    (spawnOverTime32 dt inp g).fallingObjects = g.fallingObjects ∧
    (spawnOverTime32 dt inp g).spawnTimer = F32.add g.spawnTimer dt := by
  unfold spawnOverTime32
  simp only []
  rw [if_neg h]
  simp

/-- The binary32 globals when the collision loop of `UpdateGame` starts. -/
theorem UpdateGame32_eq (web : Bool) (dt : F32) (inp : Input) (g : Game32) :
    UpdateGame32 web dt inp g =
      checkCollisions32 web
        { player := movePlayer32 dt inp g.player
          fallingObjects :=
            ((spawnOverTime32 dt inp g).fallingObjects.map (advance32 dt)).filter
              (fun obj => !offScreen32 obj)
          gameState := g.gameState
          quote := g.quote
          spawnTimer := (spawnOverTime32 dt inp g).spawnTimer
          fetchRequests := g.fetchRequests }
        (((spawnOverTime32 dt inp g).fallingObjects.map (advance32 dt)).filter
            (fun obj => !offScreen32 obj)) := by
  unfold UpdateGame32 spawnOverTime32
  simp only []
  split_ifs <;> simp [SpawnFallingObject32]

theorem UpdateGame32_player (web : Bool) (dt : F32) (inp : Input) (g : Game32) :
    (UpdateGame32 web dt inp g).player = movePlayer32 dt inp g.player := by
  rw [UpdateGame32_eq, (checkCollisions32_frame _ _ _).1]

theorem UpdateGame32_fallingObjects (web : Bool) (dt : F32) (inp : Input) (g : Game32) :
    (UpdateGame32 web dt inp g).fallingObjects =
      ((spawnOverTime32 dt inp g).fallingObjects.map (advance32 dt)).filter
        (fun obj => !offScreen32 obj) := by
  rw [UpdateGame32_eq, (checkCollisions32_frame _ _ _).2.1]

theorem UpdateGame32_spawnTimer (web : Bool) (dt : F32) (inp : Input) (g : Game32) :
    (UpdateGame32 web dt inp g).spawnTimer = (spawnOverTime32 dt inp g).spawnTimer := by
  rw [UpdateGame32_eq, (checkCollisions32_frame _ _ _).2.2]

/-! ## The exponent and the rounding of the significand -/

theorem pow2_pos (k : Int) : 0 < pow2 k := by
  unfold pow2
  split_ifs <;> positivity

theorem pow2_eq_zpow (k : Int) : pow2 k = (2 : ℚ) ^ k := by
  unfold pow2
  split_ifs with h
  · obtain ⟨n, rfl⟩ := Int.eq_ofNat_of_zero_le h
    simp
  · push_neg at h
    obtain ⟨n, hn⟩ := Int.exists_eq_neg_ofNat (le_of_lt h)
    subst hn
    simp

theorem pow2_add (a b : Int) : pow2 (a + b) = pow2 a * pow2 b := by
  rw [pow2_eq_zpow, pow2_eq_zpow, pow2_eq_zpow, zpow_add₀ (by norm_num)]

theorem pow2_le_pow2 (a b : Int) (h : a ≤ b) : pow2 a ≤ pow2 b := by
  rw [pow2_eq_zpow, pow2_eq_zpow]
  exact zpow_le_zpow_right₀ (by norm_num) h

theorem pow2_lt_pow2_iff (a b : Int) : pow2 a < pow2 b ↔ a < b := by
  rw [pow2_eq_zpow, pow2_eq_zpow]
  exact zpow_lt_zpow_iff_right₀ (by norm_num)

theorem halvings_spec : ∀ (fuel n : Nat), n ≤ fuel → n ≠ 0 →
    2 ^ halvings fuel n ≤ n ∧ n < 2 ^ (halvings fuel n + 1) := by
  intro fuel
  induction fuel with
  | zero =>
    intro n hle hne
    omega
  | succ fuel ih =>
    intro n hle hne
    unfold halvings
    split_ifs with h2
    · have : n = 1 := by omega
      subst this
      simp
    · have hdiv : n / 2 ≤ fuel := by omega
      have hne2 : n / 2 ≠ 0 := by omega
      obtain ⟨h1, h3⟩ := ih (n / 2) hdiv hne2
      constructor
      · rw [pow_succ]
        omega
      · rw [pow_succ]
        omega

theorem log2Nat_spec (n : Nat) (hn : n ≠ 0) :
    2 ^ log2Nat n ≤ n ∧ n < 2 ^ (log2Nat n + 1) :=
  halvings_spec n n (le_refl n) hn

theorem floorLog2_bounds (a : ℚ) (ha : 0 < a) :
    pow2 ((log2Nat a.num.natAbs : Int) - (log2Nat a.den : Int) - 1) < a ∧
    a < pow2 ((log2Nat a.num.natAbs : Int) - (log2Nat a.den : Int) + 1) := by
  have hnum : 0 < a.num := Rat.num_pos.mpr ha
  have hN0 : a.num.natAbs ≠ 0 := by omega
  have hD0 : a.den ≠ 0 := a.den_nz
  obtain ⟨hN1, hN2⟩ := log2Nat_spec a.num.natAbs hN0
  obtain ⟨hD1, hD2⟩ := log2Nat_spec a.den hD0
  generalize log2Nat a.num.natAbs = ln at *
  generalize log2Nat a.den = ld at *
  have hNq : ((a.num.natAbs : Nat) : ℚ) = (a.num : ℚ) := by
    rw [Nat.cast_natAbs, abs_of_pos hnum]
  have hval : a = (a.num.natAbs : ℚ) / (a.den : ℚ) := by
    rw [hNq]
    exact (Rat.num_div_den a).symm
  have hDpos : (0 : ℚ) < (a.den : ℚ) := by exact_mod_cast Nat.pos_of_ne_zero hD0
  have c1 : (2 : ℚ) ^ ln ≤ (a.num.natAbs : ℚ) := by exact_mod_cast hN1
  have c2 : (a.num.natAbs : ℚ) < (2 : ℚ) ^ (ln + 1) := by exact_mod_cast hN2
  have c3 : (2 : ℚ) ^ ld ≤ (a.den : ℚ) := by exact_mod_cast hD1
  have c4 : (a.den : ℚ) < (2 : ℚ) ^ (ld + 1) := by exact_mod_cast hD2
  have p1 : pow2 ((ln : Int) - (ld : Int) - 1) = (2 : ℚ) ^ ln / (2 : ℚ) ^ (ld + 1) := by
    rw [pow2_eq_zpow, show ((ln : Int) - (ld : Int) - 1) = (ln : Int) - ((ld + 1 : Nat) : Int) by
      push_cast; ring, zpow_sub₀ (by norm_num), zpow_natCast, zpow_natCast]
  have p2 : pow2 ((ln : Int) - (ld : Int) + 1) = (2 : ℚ) ^ (ln + 1) / (2 : ℚ) ^ ld := by
    rw [pow2_eq_zpow, show ((ln : Int) - (ld : Int) + 1) = ((ln + 1 : Nat) : Int) - (ld : Int) by
      push_cast; ring, zpow_sub₀ (by norm_num), zpow_natCast, zpow_natCast]
  have h2ld : (0 : ℚ) < (2 : ℚ) ^ ld := by positivity
  have h2ld1 : (0 : ℚ) < (2 : ℚ) ^ (ld + 1) := by positivity
  constructor
  · rw [p1, hval, div_lt_div_iff₀ h2ld1 hDpos]
    calc (2 : ℚ) ^ ln * (a.den : ℚ) < (2 : ℚ) ^ ln * (2 : ℚ) ^ (ld + 1) := by
          apply mul_lt_mul_of_pos_left c4 (by positivity)
      _ ≤ (a.num.natAbs : ℚ) * (2 : ℚ) ^ (ld + 1) := by
          apply mul_le_mul_of_nonneg_right c1 (le_of_lt h2ld1)
  · rw [p2, hval, div_lt_div_iff₀ hDpos h2ld]
    calc (a.num.natAbs : ℚ) * (2 : ℚ) ^ ld < (2 : ℚ) ^ (ln + 1) * (2 : ℚ) ^ ld := by
          apply mul_lt_mul_of_pos_right c2 h2ld
      _ ≤ (2 : ℚ) ^ (ln + 1) * (a.den : ℚ) := by
          apply mul_le_mul_of_nonneg_left c3 (by positivity)

theorem floorLog2_spec (a : ℚ) (ha : 0 < a) :
    pow2 (floorLog2 a) ≤ a ∧ a < pow2 (floorLog2 a + 1) := by
  obtain ⟨h1, h2⟩ := floorLog2_bounds a ha
  unfold floorLog2
  simp only []
  split_ifs with h
  · exact ⟨h, h2⟩
  · push_neg at h
    refine ⟨le_of_lt h1, ?_⟩
    rw [sub_add_cancel]
    exact h

theorem floorLog2_unique (a : ℚ) (k : Int) (h1 : pow2 k ≤ a) (h2 : a < pow2 (k + 1)) :
    floorLog2 a = k := by
  have ha : 0 < a := lt_of_lt_of_le (pow2_pos k) h1
  obtain ⟨s1, s2⟩ := floorLog2_spec a ha
  have l1 : floorLog2 a < k + 1 := (pow2_lt_pow2_iff _ _).mp (lt_of_le_of_lt s1 h2)
  have l2 : k < floorLog2 a + 1 := (pow2_lt_pow2_iff _ _).mp (lt_of_le_of_lt h1 s2)
  omega

theorem roundHalfEven_bounds (x : ℚ) :
    ⌊x⌋ ≤ roundHalfEven x ∧ roundHalfEven x ≤ ⌊x⌋ + 1 := by
  unfold roundHalfEven
  simp only []
  split_ifs <;> constructor <;> omega

theorem roundHalfEven_intCast (n : Int) : roundHalfEven (n : ℚ) = n := by
  unfold roundHalfEven
  simp

theorem roundHalfEven_mono (x y : ℚ) (h : x ≤ y) : roundHalfEven x ≤ roundHalfEven y := by
  have hf : ⌊x⌋ ≤ ⌊y⌋ := Int.floor_le_floor h
  rcases lt_or_eq_of_le hf with hlt | heq
  · have bx := (roundHalfEven_bounds x).2
    have bY := (roundHalfEven_bounds y).1
    omega
  · unfold roundHalfEven
    simp only []
    rw [← heq]
    split_ifs <;> first | omega | (exfalso; linarith)

/-! ## Signs and order in binary32 -/

theorem roundHalfEven_nonneg (x : ℚ) (h : 0 ≤ x) : 0 ≤ roundHalfEven x := by
  have hf : (0 : Int) ≤ ⌊x⌋ := Int.floor_nonneg.mpr h
  unfold roundHalfEven
  simp only []
  split_ifs <;> omega

theorem roundMagnitude_nonneg (a : ℚ) (h : 0 ≤ a) : 0 ≤ roundMagnitude a := by
  unfold roundMagnitude
  simp only []
  have hr := roundHalfEven_nonneg _ (div_nonneg h (le_of_lt (pow2_pos
    (max (floorLog2 a) (-126) - 23))))
  have hr2 : (0 : ℚ) ≤ ((roundHalfEven (a / pow2 (max (floorLog2 a) (-126) - 23)) : Int) :
      ℚ) := by exact_mod_cast hr
  exact mul_nonneg hr2 (le_of_lt (pow2_pos _))

theorem round32_ne_nan (q : ℚ) : round32 q ≠ F32.nan := by
  unfold round32
  split_ifs <;> simp

theorem round32_nonneg (q : ℚ) (h : 0 ≤ q) : F32.le (F32.fin 0) (round32 q) = true := by
  unfold round32
  have hneg : ¬ q < 0 := not_lt.mpr h
  split_ifs with h0 hover
  · simp [F32.le]
  · simp [F32.le, hneg]
  · simp only [F32.le, decide_eq_true_eq]
    exact roundMagnitude_nonneg _ (abs_nonneg q)

theorem F32.add_nonneg (a b : F32) (ha : F32.le (F32.fin 0) a = true)
    (hb : F32.le (F32.fin 0) b = true) : F32.le (F32.fin 0) (F32.add a b) = true := by
  cases a with
  | nan => simp [F32.le] at ha
  | inf s =>
    cases b with
    | nan => simp [F32.le] at hb
    | inf t =>
      simp only [F32.le, Bool.not_eq_true'] at ha hb
      subst ha
      subst hb
      simp [F32.add, F32.le]
    | fin y =>
      simp only [F32.le, Bool.not_eq_true'] at ha
      subst ha
      simp [F32.add, F32.le]
  | fin x =>
    cases b with
    | nan => simp [F32.le] at hb
    | inf t =>
      simp only [F32.le, Bool.not_eq_true'] at hb
      subst hb
      simp [F32.add, F32.le]
    | fin y =>
      simp only [F32.le, decide_eq_true_eq] at ha hb
      simp only [F32.add]
      exact round32_nonneg _ (by linarith)

theorem F32.lt_of_not_le (a b : F32) (ha : a ≠ F32.nan) (hb : b ≠ F32.nan)
    (h : ¬ F32.le b a = true) : F32.lt a b = true := by
  cases a with
  | nan => exact absurd rfl ha
  | inf s =>
    cases b with
    | nan => exact absurd rfl hb
    | inf t => cases s <;> cases t <;> simp [F32.le, F32.lt] at h ⊢
    | fin y => cases s <;> simp [F32.le, F32.lt] at h ⊢
  | fin x =>
    cases b with
    | nan => exact absurd rfl hb
    | inf t => cases t <;> simp [F32.le, F32.lt] at h ⊢
    | fin y =>
      simp only [F32.le, F32.lt, decide_eq_true_eq, not_le] at h ⊢
      exact h

theorem F32.ne_nan_of_le (a b : F32) (h : F32.le a b = true) : a ≠ F32.nan ∧ b ≠ F32.nan := by
  cases a <;> cases b <;> simp [F32.le] at h ⊢

/-! ## Advance and prune in binary32 -/

/-- C4, as the code has it. Every object that was in the store before
`UpdateGame(dt)` and is still in it afterwards has as its `y` the binary32 result
of `y + speed * dt`, the product rounded and then the sum rounded, and its `x`,
`width`, `height` and `speed` unchanged: the store afterwards is the list of the
old objects whose new `y` is not above `screenHeight`, each rewritten so, followed
by what is left of this frame's spawn. With an empty store and no spawn the store
stays empty. -/
theorem UpdateGame32_survivors_advanced (web : Bool) (dt : F32) (inp : Input) (g : Game32) :
    (UpdateGame32 web dt inp g).fallingObjects =
      (g.fallingObjects.filter
          (fun obj => !F32.lt (F32.ofInt screenHeight)
            (F32.add obj.rect.y (F32.mul obj.speed dt)))).map
        (fun obj =>
          { rect := { x := obj.rect.x, y := F32.add obj.rect.y (F32.mul obj.speed dt),
                      width := obj.rect.width, height := obj.rect.height },
            speed := obj.speed }) ++
      (if F32.le spawnInterval32 (F32.add g.spawnTimer dt) = true
        then [advance32 dt (spawnedObject32 inp.rand)].filter (fun obj => !offScreen32 obj)
        else []) ∧
    (g.fallingObjects = [] → ¬ F32.le spawnInterval32 (F32.add g.spawnTimer dt) = true →
      (UpdateGame32 web dt inp g).fallingObjects = []) := by
  have hold : ∀ objs : List FallingObject32,
      (objs.map (advance32 dt)).filter (fun obj => !offScreen32 obj) =
        (objs.filter
          (fun obj => !F32.lt (F32.ofInt screenHeight)
            (F32.add obj.rect.y (F32.mul obj.speed dt)))).map
        (fun obj =>
          { rect := { x := obj.rect.x, y := F32.add obj.rect.y (F32.mul obj.speed dt),
                      width := obj.rect.width, height := obj.rect.height },
            speed := obj.speed }) := by
    intro objs
    rw [List.filter_map]
    rfl
  refine ⟨?_, ?_⟩
  · rw [UpdateGame32_fallingObjects]
    split_ifs with h
    · rw [(spawnOverTime32_due dt inp g h).1, List.map_append, List.filter_append, hold]
      rfl
    · rw [(spawnOverTime32_not_due dt inp g h).1, hold, List.append_nil]
  · intro hg hno
    rw [UpdateGame32_fallingObjects, (spawnOverTime32_not_due dt inp g hno).1, hg]
    rfl

/-- C4, as the spec has it, fails. At `dt = 0.016666668f` an object at `y = -30` of
speed 151 is left at `y = -7204591/262144 = -27.483333587646484`, which is not
`-30 + 151 * dt`; and an object at `y = 597.5` of speed 150 is left in the store at
`y = 600`, while `597.5 + 150 * dt` is above 600. -/
theorem UpdateGame32_y_not_exact :
    (UpdateGame32 true dtSixtieth noKeys oneFresh32).fallingObjects =
      [{ freshObject32 with
          rect := { freshObject32.rect with y := F32.fin (-7204591 / 262144) } }] ∧
    (-7204591 / 262144 : ℚ) ≠ -30 + 151 * (8947849 / 536870912) ∧
    (UpdateGame32 true dtSixtieth noKeys oneLate32).fallingObjects =
      [{ lateObject32 with rect := { lateObject32.rect with y := F32.fin 600 } }] ∧
    (600 : ℚ) < 1195 / 2 + 150 * (8947849 / 536870912) := by
  decide!

/-- The empty-store case of the binary32 C4: no object, no spawn, and the store is
still empty after a frame of one sixtieth of a second. -/
theorem UpdateGame32_survivors_advanced_witness :
    (playing32.fallingObjects = [] ∧
      ¬ F32.le spawnInterval32 (F32.add playing32.spawnTimer dtSixtieth) = true) ∧
    (UpdateGame32 true dtSixtieth noKeys playing32).fallingObjects = [] :=
  have hno : ¬ F32.le spawnInterval32 (F32.add playing32.spawnTimer dtSixtieth) = true := by
    decide!
  ⟨⟨rfl, hno⟩,
    (UpdateGame32_survivors_advanced true dtSixtieth noKeys playing32).2 rfl hno⟩

/-! ## Spawning in binary32 -/

/-- C5, as the code has it. With `spawnTimer ≥ 0` and `dt ≥ 0`, the spawn block of
`UpdateGame(dt)` appends an object exactly when the binary32 sum of `spawnTimer`
and `dt`, which is what `spawnTimer += dt` stores, is at least `spawnInterval`. On
such a frame `spawnTimer` is 0 afterwards and the store has its old size plus one
minus the number of objects pruned; on any other frame `spawnTimer` is that
binary32 sum, within `[0, spawnInterval)`, and the store holds old objects only. -/
theorem UpdateGame32_spawn_timer (web : Bool) (dt : F32) (inp : Input) (g : Game32)
    (ht : F32.le (F32.fin 0) g.spawnTimer = true) (hdt : F32.le (F32.fin 0) dt = true) :
    ((spawnOverTime32 dt inp g).fallingObjects =
        g.fallingObjects ++ [spawnedObject32 inp.rand] ↔
      F32.le spawnInterval32 (F32.add g.spawnTimer dt) = true) ∧
    (¬ F32.le spawnInterval32 (F32.add g.spawnTimer dt) = true →
      (spawnOverTime32 dt inp g).fallingObjects = g.fallingObjects) ∧
    (UpdateGame32 web dt inp g).fallingObjects =
      ((spawnOverTime32 dt inp g).fallingObjects.map (advance32 dt)).filter
        (fun obj => !offScreen32 obj) ∧
    (F32.le spawnInterval32 (F32.add g.spawnTimer dt) = true →
      (UpdateGame32 web dt inp g).spawnTimer = F32.fin 0 ∧
      ((UpdateGame32 web dt inp g).fallingObjects.length : Int) =
        (g.fallingObjects.length : Int) + 1 -
          (((g.fallingObjects ++ [spawnedObject32 inp.rand]).map (advance32 dt)).countP
            offScreen32 : Nat)) ∧
    (¬ F32.le spawnInterval32 (F32.add g.spawnTimer dt) = true →
      (UpdateGame32 web dt inp g).spawnTimer = F32.add g.spawnTimer dt ∧
      F32.le (F32.fin 0) (UpdateGame32 web dt inp g).spawnTimer = true ∧
      F32.lt (UpdateGame32 web dt inp g).spawnTimer spawnInterval32 = true ∧
      (UpdateGame32 web dt inp g).fallingObjects =
        (g.fallingObjects.map (advance32 dt)).filter (fun obj => !offScreen32 obj) ∧
      (UpdateGame32 web dt inp g).fallingObjects.length ≤ g.fallingObjects.length) := by
  have hsum := F32.add_nonneg g.spawnTimer dt ht hdt
  refine ⟨?_, fun h => (spawnOverTime32_not_due dt inp g h).1,
    UpdateGame32_fallingObjects web dt inp g, ?_, ?_⟩
  · constructor
    · intro h
      by_contra hno
      rw [(spawnOverTime32_not_due dt inp g hno).1] at h
      have := congrArg List.length h
      simp at this
    · intro h
      exact (spawnOverTime32_due dt inp g h).1
  · intro h
    rw [UpdateGame32_spawnTimer, UpdateGame32_fallingObjects, (spawnOverTime32_due dt inp g h).2,
      (spawnOverTime32_due dt inp g h).1]
    refine ⟨by decide!, ?_⟩
    have hlen := List.length_eq_countP_add_countP offScreen32
      ((g.fallingObjects ++ [spawnedObject32 inp.rand]).map (advance32 dt))
    have hfilter : (((g.fallingObjects ++ [spawnedObject32 inp.rand]).map (advance32 dt)).filter
        (fun obj => !offScreen32 obj)).length =
        ((g.fallingObjects ++ [spawnedObject32 inp.rand]).map (advance32 dt)).countP
          (fun obj => ¬ offScreen32 obj = true) := by
      rw [List.countP_eq_length_filter]
      congr 2
      funext obj
      simp
    rw [hfilter]
    simp only [List.length_map, List.length_append, List.length_singleton] at hlen
    omega
  · intro h
    rw [UpdateGame32_spawnTimer, UpdateGame32_fallingObjects,
      (spawnOverTime32_not_due dt inp g h).2, (spawnOverTime32_not_due dt inp g h).1]
    refine ⟨rfl, hsum, ?_, rfl, ?_⟩
    · exact F32.lt_of_not_le _ _ (F32.ne_nan_of_le _ _ hsum).2 (by simp [spawnInterval32]) h
    · calc ((g.fallingObjects.map (advance32 dt)).filter (fun obj => !offScreen32 obj)).length
          ≤ (g.fallingObjects.map (advance32 dt)).length := List.length_filter_le _ _
        _ = g.fallingObjects.length := List.length_map _ _

/-- C5, as the spec has it, fails. With `spawnTimer = 0.98333329f` and
`dt = 0.016666681f` the exact sum is below `spawnInterval = 1`, yet the sum the
code stores is `1.0f`: the frame spawns an object into the empty store and resets
the timer to 0. -/
theorem UpdateGame32_spawns_below_interval :
    (F32.le (F32.fin 0) nearInterval32.spawnTimer = true ∧ F32.le (F32.fin 0) dtLong = true) ∧
    nearInterval32.spawnTimer = F32.fin (16497595 / 16777216) ∧
    dtLong = F32.fin (559241 / 33554432) ∧
    (16497595 / 16777216 : ℚ) + 559241 / 33554432 < 1 ∧
    F32.add nearInterval32.spawnTimer dtLong = F32.fin 1 ∧
    nearInterval32.fallingObjects = [] ∧
    (UpdateGame32 true dtLong noKeys nearInterval32).fallingObjects.length = 1 ∧
    (UpdateGame32 true dtLong noKeys nearInterval32).spawnTimer = F32.fin 0 := by
  decide!

/-- The two cases of the binary32 C5 on concrete games: from `0.98333329f` a frame
of `0.016666681f` spawns and resets the timer, a frame of `0.016666668f` from 0
does not. -/
theorem UpdateGame32_spawn_timer_witness :
    (F32.le (F32.fin 0) nearInterval32.spawnTimer = true ∧ F32.le (F32.fin 0) dtLong = true ∧
      F32.le (F32.fin 0) dtSixtieth = true) ∧
    (UpdateGame32 true dtLong noKeys nearInterval32).spawnTimer = F32.fin 0 ∧
    (UpdateGame32 true dtSixtieth noKeys playing32).spawnTimer =
      F32.add playing32.spawnTimer dtSixtieth :=
  have h0 : F32.le (F32.fin 0) nearInterval32.spawnTimer = true := by decide!
  have h1 : F32.le (F32.fin 0) dtLong = true := by decide!
  have h2 : F32.le (F32.fin 0) dtSixtieth = true := by decide!
  have h3 : F32.le (F32.fin 0) playing32.spawnTimer = true := by decide!
  have hdue : F32.le spawnInterval32 (F32.add nearInterval32.spawnTimer dtLong) = true := by
    decide!
  have hnot : ¬ F32.le spawnInterval32 (F32.add playing32.spawnTimer dtSixtieth) = true := by
    decide!
  ⟨⟨h0, h1, h2⟩,
    ((UpdateGame32_spawn_timer true dtLong noKeys nearInterval32 h0 h1).2.2.2.1 hdue).1,
    ((UpdateGame32_spawn_timer true dtSixtieth noKeys playing32 h3 h2).2.2.2.2 hnot).1⟩

/-! ## Rounding is monotone and idempotent -/

theorem pow2_succ_split (e : Int) : pow2 (e + 1) = 16777216 * pow2 (e - 23) := by
  have h : e + 1 = 24 + (e - 23) := by ring
  rw [h, pow2_add]
  congr 1

theorem pow2_split (e : Int) : pow2 e = 8388608 * pow2 (e - 23) := by
  have h : e = 23 + (e - 23) := by ring
  conv_lhs => rw [h, pow2_add]
  congr 1

theorem roundMagnitude_le_pow (a : ℚ) (ha : 0 < a) :
    roundMagnitude a ≤ pow2 (max (floorLog2 a) (-126) + 1) := by
  obtain ⟨_, h2⟩ := floorLog2_spec a ha
  have hle : pow2 (floorLog2 a + 1) ≤ pow2 (max (floorLog2 a) (-126) + 1) :=
    pow2_le_pow2 _ _ (by omega)
  have hu := pow2_pos (max (floorLog2 a) (-126) - 23)
  unfold roundMagnitude
  simp only []
  rw [pow2_succ_split (max (floorLog2 a) (-126))] at hle ⊢
  have hdiv : a / pow2 (max (floorLog2 a) (-126) - 23) ≤ ((16777216 : Int) : ℚ) := by
    rw [div_le_iff₀ hu]
    push_cast
    linarith
  have hr := roundHalfEven_mono _ _ hdiv
  rw [roundHalfEven_intCast] at hr
  have hr2 : ((roundHalfEven (a / pow2 (max (floorLog2 a) (-126) - 23)) : Int) : ℚ) ≤
      16777216 := by exact_mod_cast hr
  exact mul_le_mul_of_nonneg_right hr2 (le_of_lt hu)

theorem roundMagnitude_ge_pow (a : ℚ) (ha : 0 < a) (hn : -126 ≤ floorLog2 a) :
    pow2 (floorLog2 a) ≤ roundMagnitude a := by
  obtain ⟨h1, _⟩ := floorLog2_spec a ha
  have hmax : max (floorLog2 a) (-126) = floorLog2 a := max_eq_left hn
  have hu := pow2_pos (floorLog2 a - 23)
  unfold roundMagnitude
  simp only []
  rw [hmax]
  rw [pow2_split] at h1
  rw [pow2_split (floorLog2 a)]
  have hdiv : ((8388608 : Int) : ℚ) ≤ a / pow2 (floorLog2 a - 23) := by
    rw [le_div_iff₀ hu]
    push_cast
    linarith
  have hr := roundHalfEven_mono _ _ hdiv
  rw [roundHalfEven_intCast] at hr
  have hr2 : (8388608 : ℚ) ≤ ((roundHalfEven (a / pow2 (floorLog2 a - 23)) : Int) : ℚ) := by
    exact_mod_cast hr
  exact mul_le_mul_of_nonneg_right hr2 (le_of_lt hu)

theorem floorLog2_mono (a b : ℚ) (ha : 0 < a) (h : a ≤ b) : floorLog2 a ≤ floorLog2 b := by
  obtain ⟨a1, _⟩ := floorLog2_spec a ha
  obtain ⟨_, b2⟩ := floorLog2_spec b (lt_of_lt_of_le ha h)
  have := (pow2_lt_pow2_iff _ _).mp (lt_of_le_of_lt (le_trans a1 h) b2)
  omega

theorem roundMagnitude_mono (a b : ℚ) (ha : 0 < a) (h : a ≤ b) :
    roundMagnitude a ≤ roundMagnitude b := by
  have hb : 0 < b := lt_of_lt_of_le ha h
  have hfl := floorLog2_mono a b ha h
  rcases lt_or_eq_of_le (max_le_max hfl (le_refl (-126 : Int))) with hlt | heq
  · have hbn : -126 ≤ floorLog2 b := by
      by_contra hc
      push_neg at hc
      rw [max_eq_right (le_of_lt hc)] at hlt
      have := le_max_right (floorLog2 a) (-126)
      omega
    have hmaxb : max (floorLog2 b) (-126) = floorLog2 b := max_eq_left hbn
    rw [hmaxb] at hlt
    calc roundMagnitude a ≤ pow2 (max (floorLog2 a) (-126) + 1) := roundMagnitude_le_pow a ha
      _ ≤ pow2 (floorLog2 b) := pow2_le_pow2 _ _ (by omega)
      _ ≤ roundMagnitude b := roundMagnitude_ge_pow b hb hbn
  · unfold roundMagnitude
    simp only []
    rw [heq]
    have hu := pow2_pos (max (floorLog2 b) (-126) - 23)
    have hdiv : a / pow2 (max (floorLog2 b) (-126) - 23) ≤
        b / pow2 (max (floorLog2 b) (-126) - 23) := div_le_div_of_nonneg_right h (le_of_lt hu)
    have hr := roundHalfEven_mono _ _ hdiv
    have hr2 : ((roundHalfEven (a / pow2 (max (floorLog2 b) (-126) - 23)) : Int) : ℚ) ≤
        ((roundHalfEven (b / pow2 (max (floorLog2 b) (-126) - 23)) : Int) : ℚ) := by
      exact_mod_cast hr
    exact mul_le_mul_of_nonneg_right hr2 (le_of_lt hu)

theorem pow2_le_pow2_iff (a b : Int) : pow2 a ≤ pow2 b ↔ a ≤ b := by
  rw [pow2_eq_zpow, pow2_eq_zpow]
  exact zpow_le_zpow_iff_right₀ (by norm_num)

theorem roundMagnitude_of_multiple (r : ℚ) (m : Int)
    (h : r = (m : ℚ) * pow2 (max (floorLog2 r) (-126) - 23)) : roundMagnitude r = r := by
  have hu := pow2_pos (max (floorLog2 r) (-126) - 23)
  unfold roundMagnitude
  simp only []
  have hdiv : r / pow2 (max (floorLog2 r) (-126) - 23) = (m : ℚ) := by
    rw [div_eq_iff (ne_of_gt hu)]
    exact h
  rw [hdiv, roundHalfEven_intCast]
  exact h.symm

theorem roundMagnitude_grid (n e : Int) (he : -126 ≤ e) (hn : 0 < n)
    (hle : (n : ℚ) * pow2 (e - 23) ≤ pow2 (e + 1)) :
    roundMagnitude ((n : ℚ) * pow2 (e - 23)) = (n : ℚ) * pow2 (e - 23) := by
  have hu := pow2_pos (e - 23)
  have hnq : (0 : ℚ) < (n : ℚ) := by exact_mod_cast hn
  have hr : 0 < (n : ℚ) * pow2 (e - 23) := mul_pos hnq hu
  generalize hrdef : (n : ℚ) * pow2 (e - 23) = r at *
  obtain ⟨s1, s2⟩ := floorLog2_spec r hr
  by_cases hcase : max (floorLog2 r) (-126) ≤ e
  · have hk : 0 ≤ e - max (floorLog2 r) (-126) := by omega
    have hsplit : pow2 (e - 23) =
        pow2 (e - max (floorLog2 r) (-126)) * pow2 (max (floorLog2 r) (-126) - 23) := by
      rw [← pow2_add]
      congr 1
      ring
    have hint : pow2 (e - max (floorLog2 r) (-126)) =
        (((2 ^ (e - max (floorLog2 r) (-126)).toNat : Nat) : Int) : ℚ) := by
      unfold pow2
      rw [if_pos hk]
      push_cast
      rfl
    apply roundMagnitude_of_multiple r
      (n * ((2 ^ (e - max (floorLog2 r) (-126)).toNat : Nat) : Int))
    generalize max (floorLog2 r) (-126) = er at *
    rw [← hrdef, hsplit, hint]
    push_cast
    ring
  · push_neg at hcase
    have hfl : max (floorLog2 r) (-126) = floorLog2 r := by
      apply max_eq_left
      by_contra hc
      push_neg at hc
      rw [max_eq_right (le_of_lt hc)] at hcase
      omega
    rw [hfl] at hcase
    have hle2 : floorLog2 r ≤ e + 1 := (pow2_le_pow2_iff _ _).mp (le_trans s1 hle)
    have heq : floorLog2 r = e + 1 := by omega
    have hreq : r = pow2 (e + 1) := le_antisymm hle (by rw [← heq]; exact s1)
    apply roundMagnitude_of_multiple r 8388608
    rw [hfl, heq, hreq]
    exact pow2_split (e + 1)

theorem roundMagnitude_idem (a : ℚ) (ha : 0 < a) :
    roundMagnitude (roundMagnitude a) = roundMagnitude a := by
  have hnn := roundMagnitude_nonneg a (le_of_lt ha)
  have hle := roundMagnitude_le_pow a ha
  have hrn := roundHalfEven_nonneg (a / pow2 (max (floorLog2 a) (-126) - 23))
    (div_nonneg (le_of_lt ha) (le_of_lt (pow2_pos _)))
  rcases lt_or_eq_of_le hrn with hpos | hzero
  · have := roundMagnitude_grid _ (max (floorLog2 a) (-126)) (le_max_right _ _) hpos
      (by simpa [roundMagnitude] using hle)
    simpa [roundMagnitude] using this
  · have hz : roundMagnitude a = 0 := by
      unfold roundMagnitude
      simp only []
      rw [← hzero]
      simp
    rw [hz]
    unfold roundMagnitude
    simp [roundHalfEven]

theorem round32_of_pos (q : ℚ) (hq : 0 < q) :
    round32 q = if pow2 128 ≤ roundMagnitude q then F32.inf false
      else F32.fin (roundMagnitude q) := by
  unfold round32
  have h0 : ¬ q = 0 := ne_of_gt hq
  have hneg : ¬ q < 0 := not_lt.mpr (le_of_lt hq)
  simp [h0, hneg, abs_of_pos hq]

theorem round32_neg (q : ℚ) : round32 (-q) = F32.neg (round32 q) := by
  unfold round32
  by_cases h0 : q = 0
  · simp [h0, F32.neg]
  · have h0n : ¬ -q = 0 := by simpa using h0
    rw [if_neg h0, if_neg h0n, abs_neg]
    rcases lt_or_gt_of_ne h0 with hlt | hgt
    · have h1 : ¬ -q < 0 := by linarith
      split_ifs <;> simp [F32.neg, hlt, h1]
    · have h1 : -q < 0 := by linarith
      have h2 : ¬ q < 0 := by linarith
      split_ifs <;> simp [F32.neg, h1, h2]

theorem round32_isValue (q : ℚ) : (round32 q).IsValue := by
  rcases lt_trichotomy q 0 with hlt | h0 | hgt
  · have hp : 0 < -q := by linarith
    have hq : q = -(-q) := by ring
    rw [hq, round32_neg, round32_of_pos _ hp]
    split_ifs with hover
    · simp [F32.neg, F32.IsValue]
    · simp only [F32.neg, F32.IsValue]
      rw [round32_neg]
      rcases lt_or_eq_of_le (roundMagnitude_nonneg (-q) (le_of_lt hp)) with hpos | hz
      · rw [round32_of_pos _ hpos, roundMagnitude_idem _ hp, if_neg hover]
        rfl
      · rw [← hz]
        simp [round32, F32.neg]
  · rw [h0]
    simp [round32, F32.IsValue]
  · rw [round32_of_pos _ hgt]
    split_ifs with hover
    · simp [F32.IsValue]
    · simp only [F32.IsValue]
      rcases lt_or_eq_of_le (roundMagnitude_nonneg q (le_of_lt hgt)) with hpos | hz
      · rw [round32_of_pos _ hpos, roundMagnitude_idem _ hgt, if_neg hover]
      · rw [← hz]
        simp [round32]

theorem round32_mono_pos (a b : ℚ) (ha : 0 < a) (h : a ≤ b) :
    F32.le (round32 a) (round32 b) = true := by
  have hb : 0 < b := lt_of_lt_of_le ha h
  have hm := roundMagnitude_mono a b ha h
  rw [round32_of_pos a ha, round32_of_pos b hb]
  split_ifs with h1 h2 h2
  · simp [F32.le]
  · exact absurd (le_trans h1 hm) h2
  · simp [F32.le]
  · simp [F32.le, hm]

theorem F32.le_neg_neg (a b : F32) (h : F32.le a b = true) :
    F32.le (F32.neg b) (F32.neg a) = true := by
  cases a with
  | nan => simp [F32.le] at h
  | inf s =>
    cases b with
    | nan => simp [F32.le] at h
    | inf t => cases s <;> cases t <;> simp [F32.le, F32.neg] at h ⊢
    | fin y => cases s <;> simp [F32.le, F32.neg] at h ⊢
  | fin x =>
    cases b with
    | nan => simp [F32.le] at h
    | inf t => cases t <;> simp [F32.le, F32.neg] at h ⊢
    | fin y =>
      simp only [F32.le, F32.neg, decide_eq_true_eq] at h ⊢
      linarith

theorem F32.le_trans_zero (a b : F32) (ha : F32.le a (F32.fin 0) = true)
    (hb : F32.le (F32.fin 0) b = true) : F32.le a b = true := by
  cases a with
  | nan => simp [F32.le] at ha
  | inf s =>
    cases b with
    | nan => simp [F32.le] at hb
    | inf t => cases s <;> cases t <;> simp [F32.le] at ha hb ⊢
    | fin y => cases s <;> simp [F32.le] at ha hb ⊢
  | fin x =>
    cases b with
    | nan => simp [F32.le] at hb
    | inf t => cases t <;> simp [F32.le] at ha hb ⊢
    | fin y =>
      simp only [F32.le, decide_eq_true_eq] at ha hb ⊢
      linarith

theorem round32_nonpos (q : ℚ) (h : q ≤ 0) : F32.le (round32 q) (F32.fin 0) = true := by
  have h1 := round32_nonneg (-q) (by linarith)
  rw [round32_neg] at h1
  have h2 := F32.le_neg_neg _ _ h1
  cases hr : round32 q with
  | nan => exact absurd hr (round32_ne_nan q)
  | inf s => rw [hr] at h2; simpa [F32.neg] using h2
  | fin r => rw [hr] at h2; simpa [F32.neg] using h2

theorem round32_mono (a b : ℚ) (h : a ≤ b) : F32.le (round32 a) (round32 b) = true := by
  rcases lt_or_le 0 a with ha | ha
  · exact round32_mono_pos a b ha h
  · rcases le_or_lt 0 b with hb | hb
    · exact F32.le_trans_zero _ _ (round32_nonpos a ha) (round32_nonneg b hb)
    · have hp := round32_mono_pos (-b) (-a) (by linarith) (by linarith)
      rw [round32_neg, round32_neg] at hp
      have h2 := F32.le_neg_neg _ _ hp
      cases hra : round32 a with
      | nan => exact absurd hra (round32_ne_nan a)
      | inf s =>
        cases hrb : round32 b with
        | nan => exact absurd hrb (round32_ne_nan b)
        | inf t => rw [hra, hrb] at h2; simpa [F32.neg] using h2
        | fin y => rw [hra, hrb] at h2; simpa [F32.neg] using h2
      | fin x =>
        cases hrb : round32 b with
        | nan => exact absurd hrb (round32_ne_nan b)
        | inf t => rw [hra, hrb] at h2; simpa [F32.neg] using h2
        | fin y => rw [hra, hrb] at h2; simpa [F32.neg] using h2

/-! ## The clamp in binary32 -/

theorem F32.add_isValue (a b : F32) : (F32.add a b).IsValue := by
  cases a <;> cases b <;> simp only [F32.add] <;>
    first
    | exact round32_isValue _
    | (split_ifs <;> simp [F32.IsValue])
    | simp [F32.IsValue]

theorem F32.le_of_not_lt (a b : F32) (ha : a ≠ F32.nan) (hb : b ≠ F32.nan)
    (h : F32.lt a b = false) : F32.le b a = true := by
  cases a with
  | nan => exact absurd rfl ha
  | inf s =>
    cases b with
    | nan => exact absurd rfl hb
    | inf t => cases s <;> cases t <;> simp [F32.le, F32.lt] at h ⊢
    | fin y => cases s <;> simp [F32.le, F32.lt] at h ⊢
  | fin x =>
    cases b with
    | nan => exact absurd rfl hb
    | inf t => cases t <;> simp [F32.le, F32.lt] at h ⊢
    | fin y =>
      simp only [F32.le, F32.lt, decide_eq_true_eq, decide_eq_false_iff_not, not_lt] at h ⊢
      exact h

theorem F32.lt_false_of_le (a b : F32) (h : F32.le a b = true) : F32.lt b a = false := by
  cases a with
  | nan => simp [F32.le] at h
  | inf s =>
    cases b with
    | nan => simp [F32.le] at h
    | inf t => cases s <;> cases t <;> simp [F32.le, F32.lt] at h ⊢
    | fin y => cases s <;> simp [F32.le, F32.lt] at h ⊢
  | fin x =>
    cases b with
    | nan => simp [F32.le] at h
    | inf t => cases t <;> simp [F32.le, F32.lt] at h ⊢
    | fin y =>
      simp only [F32.le, F32.lt, decide_eq_true_eq, decide_eq_false_iff_not, not_lt] at h ⊢
      exact h

theorem F32.sub_nonneg_of_le (w : F32) (c : ℚ) (h : F32.le w (F32.fin c) = true) :
    F32.le (F32.fin 0) (F32.sub (F32.fin c) w) = true := by
  cases w with
  | nan => simp [F32.le] at h
  | inf s =>
    cases s
    · simp [F32.le] at h
    · simp [F32.sub, F32.neg, F32.add, F32.le]
  | fin q =>
    simp only [F32.le, decide_eq_true_eq] at h
    simp only [F32.sub, F32.neg, F32.add]
    exact round32_nonneg _ (by linarith)

theorem F32.ofInt_zero : F32.ofInt 0 = F32.fin 0 := by decide!

theorem F32.ofInt_screenWidth : F32.ofInt screenWidth = F32.fin 800 := by decide!

theorem round32_le_of_le_value (q c : ℚ) (hc : round32 c = F32.fin c) (h : q ≤ c) :
    F32.le (round32 q) (F32.fin c) = true := by
  have := round32_mono q c h
  rwa [hc] at this

theorem round32_ge_of_value_le (q c : ℚ) (hc : round32 c = F32.fin c) (h : c ≤ q) :
    F32.le (F32.fin c) (round32 q) = true := by
  have := round32_mono c q h
  rwa [hc] at this

theorem value_grid (q : ℚ) (hv : round32 q = F32.fin q) (hq : 512 ≤ q) :
    ∃ n : Int, q = (n : ℚ) / 16384 := by
  have hpos : 0 < q := by linarith
  rw [round32_of_pos q hpos] at hv
  split_ifs at hv with hover
  injection hv with hm
  obtain ⟨s1, s2⟩ := floorLog2_spec q hpos
  have h9 : pow2 9 ≤ q := by
    have : pow2 9 = 512 := by decide!
    linarith
  have hfl : 9 ≤ floorLog2 q := by
    have := (pow2_lt_pow2_iff _ _).mp (lt_of_le_of_lt h9 s2)
    omega
  have hmax : max (floorLog2 q) (-126) = floorLog2 q := max_eq_left (by omega)
  unfold roundMagnitude at hm
  simp only [] at hm
  rw [hmax] at hm
  have hk : 0 ≤ floorLog2 q - 9 := by omega
  have hsplit : pow2 (floorLog2 q - 23) = pow2 (floorLog2 q - 9) * pow2 (-14) := by
    rw [← pow2_add]
    congr 1
    ring
  have hint : pow2 (floorLog2 q - 9) = (((2 ^ (floorLog2 q - 9).toNat : Nat) : Int) : ℚ) := by
    unfold pow2
    rw [if_pos hk]
    push_cast
    rfl
  have h14 : pow2 (-14) = 1 / 16384 := by decide!
  generalize roundHalfEven (q / pow2 (floorLog2 q - 23)) = n at hm
  generalize (2 ^ (floorLog2 q - 9).toNat : Nat) = P at hint
  rw [hsplit, hint, h14] at hm
  refine ⟨n * (P : Int), ?_⟩
  rw [← hm]
  push_cast
  ring

theorem clamp32_frame (p : Rectangle32) :
    (clamp32 p).y = p.y ∧ (clamp32 p).width = p.width ∧ (clamp32 p).height = p.height := by
  unfold clamp32
  simp only []
  split_ifs <;> simp

theorem moveKeys32_frame (dt : F32) (inp : Input) (p : Rectangle32) :
    (moveKeys32 dt inp p).y = p.y ∧ (moveKeys32 dt inp p).width = p.width ∧
    (moveKeys32 dt inp p).height = p.height := by
  unfold moveKeys32
  simp only []
  split_ifs <;> simp

/-- The value of `player.x` between the two clamp statements. -/
theorem clamp32_x (p : Rectangle32) :
    (clamp32 p).x =
      if F32.lt (F32.fin 800)
          (F32.add (if F32.lt p.x (F32.fin 0) = true then F32.fin 0 else p.x) p.width) = true
      then F32.sub (F32.fin 800) p.width
      else (if F32.lt p.x (F32.fin 0) = true then F32.fin 0 else p.x) := by
  unfold clamp32
  simp only [F32.ofInt_zero, F32.ofInt_screenWidth]
  split_ifs <;> simp_all

theorem clamp32_lower_nonneg (x : F32) (hx : x ≠ F32.nan) :
    F32.le (F32.fin 0) (if F32.lt x (F32.fin 0) = true then F32.fin 0 else x) = true := by
  split_ifs with h
  · simp [F32.le]
  · exact F32.le_of_not_lt x (F32.fin 0) hx (by simp) (by simpa using h)

theorem clamp32_nonneg (p : Rectangle32) (hx : p.x ≠ F32.nan)
    (hw : F32.le p.width (F32.fin 800) = true) : F32.le (F32.fin 0) (clamp32 p).x = true := by
  have h3 := clamp32_lower_nonneg p.x hx
  rw [clamp32_x]
  generalize (if F32.lt p.x (F32.fin 0) = true then F32.fin 0 else p.x) = x3 at h3 ⊢
  split_ifs with h
  · exact F32.sub_nonneg_of_le _ _ hw
  · exact h3

theorem clamp32_test (p : Rectangle32) :
    (clamp32 p).x = F32.sub (F32.ofInt screenWidth) p.width ∨
    F32.lt (F32.ofInt screenWidth) (F32.add (clamp32 p).x p.width) = false := by
  rw [clamp32_x, F32.ofInt_screenWidth]
  generalize (if F32.lt p.x (F32.fin 0) = true then F32.fin 0 else p.x) = x3
  split_ifs with h
  · exact Or.inl rfl
  · exact Or.inr (by simpa using h)

theorem clamp32_le_750 (p : Rectangle32) (hx : p.x ≠ F32.nan) (hv : p.x.IsValue)
    (hw : p.width = F32.fin 50) : F32.le (clamp32 p).x (F32.fin 750) = true := by
  have h3 := clamp32_lower_nonneg p.x hx
  have hv3 : (if F32.lt p.x (F32.fin 0) = true then F32.fin 0 else p.x).IsValue := by
    split_ifs
    · show round32 0 = F32.fin 0
      decide!
    · exact hv
  rw [clamp32_x, hw]
  generalize (if F32.lt p.x (F32.fin 0) = true then F32.fin 0 else p.x) = x3 at h3 hv3 ⊢
  split_ifs with h
  · decide!
  · cases x3 with
    | nan => simp [F32.le] at h3
    | inf s =>
      cases s
      · simp [F32.add, F32.lt] at h
      · simp [F32.le] at h3
    | fin q =>
      simp only [F32.le, decide_eq_true_eq]
      by_contra hc
      push_neg at hc
      have hvq : round32 q = F32.fin q := hv3
      obtain ⟨n, hn⟩ := value_grid q hvq (by linarith)
      have hn1 : (12288000 : ℚ) < (n : ℚ) := by
        rw [hn] at hc
        rw [lt_div_iff₀ (by norm_num)] at hc
        linarith
      have hn2 : (12288001 : Int) ≤ n := by
        have : (12288000 : Int) < n := by exact_mod_cast hn1
        omega
      have hn3 : (12288001 : ℚ) ≤ (n : ℚ) := by exact_mod_cast hn2
      have hge : (13107201 / 16384 : ℚ) ≤ q + 50 := by
        rw [hn]
        rw [div_add' _ _ _ (by norm_num), div_le_div_iff_of_pos_right (by norm_num)]
        linarith
      have hc2 := round32_ge_of_value_le (q + 50) (13107201 / 16384) (by decide!) hge
      apply h
      simp only [F32.add]
      cases hr : round32 (q + 50) with
      | nan => exact absurd hr (round32_ne_nan _)
      | inf s =>
        rw [hr] at hc2
        cases s <;> simp [F32.le, F32.lt] at hc2 ⊢
      | fin r =>
        rw [hr] at hc2
        simp only [F32.le, F32.lt, decide_eq_true_eq] at hc2 ⊢
        have : (800 : ℚ) < 13107201 / 16384 := by norm_num
        linarith

theorem moveKeys32_x (dt : F32) (inp : Input) (p : Rectangle32) :
    (moveKeys32 dt inp p).x =
      if inp.keyRight = true
      then F32.add (if inp.keyLeft = true then F32.sub p.x (F32.mul playerSpeed32 dt) else p.x)
        (F32.mul playerSpeed32 dt)
      else (if inp.keyLeft = true then F32.sub p.x (F32.mul playerSpeed32 dt) else p.x) := by
  unfold moveKeys32
  simp only []
  split_ifs <;> rfl

theorem moveKeys32_isValue (dt : F32) (inp : Input) (p : Rectangle32) (hv : p.x.IsValue) :
    (moveKeys32 dt inp p).x.IsValue := by
  rw [moveKeys32_x]
  split_ifs
  · exact F32.add_isValue _ _
  · exact F32.add_isValue _ _
  · exact F32.add_isValue _ _
  · exact hv

theorem F32.add_fin_ne_nan (a : F32) (m : ℚ) (ha : a ≠ F32.nan) :
    F32.add a (F32.fin m) ≠ F32.nan := by
  cases a with
  | nan => exact absurd rfl ha
  | inf s => simp [F32.add]
  | fin x => exact round32_ne_nan _

theorem F32.fin_add_ne_nan (x : ℚ) (b : F32) (hb : b ≠ F32.nan) :
    F32.add (F32.fin x) b ≠ F32.nan := by
  cases b with
  | nan => exact absurd rfl hb
  | inf s => simp [F32.add]
  | fin y => exact round32_ne_nan _

theorem F32.neg_ne_nan (a : F32) (ha : a ≠ F32.nan) : F32.neg a ≠ F32.nan := by
  cases a <;> simp [F32.neg] at ha ⊢

theorem playerSpeed32_mul_ne_nan (dt : F32) (hdt : dt ≠ F32.nan) :
    F32.mul playerSpeed32 dt ≠ F32.nan := by
  unfold playerSpeed32
  cases dt with
  | nan => exact absurd rfl hdt
  | inf t => simp [F32.mul]
  | fin d => exact round32_ne_nan _

theorem moveKeys32_ne_nan (dt : F32) (inp : Input) (p : Rectangle32) (qx : ℚ)
    (hx : p.x = F32.fin qx) (hdt : dt ≠ F32.nan)
    (hk : inp.keyLeft = false ∨ inp.keyRight = false ∨
      ∃ m : ℚ, F32.mul playerSpeed32 dt = F32.fin m) :
    (moveKeys32 dt inp p).x ≠ F32.nan := by
  have hM := playerSpeed32_mul_ne_nan dt hdt
  rw [moveKeys32_x, hx]
  cases hl : inp.keyLeft <;> cases hr : inp.keyRight <;>
    simp only [Bool.false_eq_true, if_false, if_true]
  · simp
  · exact F32.fin_add_ne_nan _ _ hM
  · exact F32.fin_add_ne_nan _ _ (F32.neg_ne_nan _ hM)
  · rcases hk with h | h | ⟨m, hm⟩
    · rw [hl] at h
      cases h
    · rw [hr] at h
      cases h
    · rw [hm]
      exact F32.add_fin_ne_nan _ _ (F32.fin_add_ne_nan _ _ (by simp [F32.neg]))

theorem F32.eq_zero_of_le_of_le (a : F32) (h1 : F32.le a (F32.fin 0) = true)
    (h2 : F32.le (F32.fin 0) a = true) : a = F32.fin 0 := by
  cases a with
  | nan => simp [F32.le] at h1
  | inf s => cases s <;> simp [F32.le] at h1 h2
  | fin x =>
    simp only [F32.le, decide_eq_true_eq] at h1 h2
    rw [le_antisymm h1 h2]

theorem moveKeys32_nonpos (dt : F32) (inp : Input) (p : Rectangle32)
    (hx : p.x = F32.fin 0) (hl : inp.keyLeft = true) (hdt : F32.le (F32.fin 0) dt = true)
    (hn : (moveKeys32 dt inp p).x ≠ F32.nan) :
    F32.le (moveKeys32 dt inp p).x (F32.fin 0) = true := by
  rw [moveKeys32_x, hx, hl] at hn ⊢
  simp only [if_true] at hn ⊢
  have hM : F32.le (F32.fin 0) (F32.mul playerSpeed32 dt) = true := by
    unfold playerSpeed32
    cases dt with
    | nan => simp [F32.le] at hdt
    | inf t =>
      cases t
      · simp [F32.mul, F32.le]
      · simp [F32.le] at hdt
    | fin d =>
      simp only [F32.le, decide_eq_true_eq] at hdt
      exact round32_nonneg _ (by positivity)
  have hMv : (F32.mul playerSpeed32 dt).IsValue := by
    unfold playerSpeed32
    cases dt with
    | nan => simp [F32.mul, F32.IsValue]
    | inf t => simp [F32.mul, F32.IsValue]
    | fin d => exact round32_isValue _
  generalize F32.mul playerSpeed32 dt = M at hn hM hMv ⊢
  cases M with
  | nan => simp [F32.le] at hM
  | inf s =>
    cases s
    · cases hr : inp.keyRight
      · simp [F32.sub, F32.neg, F32.add, F32.le]
      · rw [hr] at hn
        simp [F32.sub, F32.neg, F32.add] at hn
    · simp [F32.le] at hM
  | fin m =>
    simp only [F32.le, decide_eq_true_eq] at hM
    have hm : round32 m = F32.fin m := hMv
    have hsub : F32.sub (F32.fin 0) (F32.fin m) = F32.fin (-m) := by
      simp only [F32.sub, F32.neg, F32.add, zero_add]
      rw [round32_neg, hm]
      rfl
    rw [hsub]
    cases hr : inp.keyRight
    · simp only [Bool.false_eq_true, if_false, F32.le, decide_eq_true_eq]
      linarith
    · simp only [if_true, F32.add, neg_add_cancel]
      decide!

theorem movePlayer32_stays_zero (dt : F32) (inp : Input) (p : Rectangle32)
    (hw : F32.le p.width (F32.fin 800) = true)
    (hx : p.x = F32.fin 0) (hl : inp.keyLeft = true) (hdt : F32.le (F32.fin 0) dt = true)
    (hn : (moveKeys32 dt inp p).x ≠ F32.nan) :
    (movePlayer32 dt inp p).x = F32.fin 0 := by
  have hle := moveKeys32_nonpos dt inp p hx hl hdt hn
  have hwk := (moveKeys32_frame dt inp p).2.1
  unfold movePlayer32
  rw [clamp32_x, hwk]
  generalize (moveKeys32 dt inp p).x = x2 at hn hle ⊢
  have h3 : (if F32.lt x2 (F32.fin 0) = true then F32.fin 0 else x2) = F32.fin 0 := by
    split_ifs with h
    · rfl
    · exact F32.eq_zero_of_le_of_le x2 hle
        (F32.le_of_not_lt x2 (F32.fin 0) hn (by simp) (by simpa using h))
  rw [h3]
  have htest : F32.lt (F32.fin 800) (F32.add (F32.fin 0) p.width) = false := by
    apply F32.lt_false_of_le
    cases hpw : p.width with
    | nan => rw [hpw] at hw; simp [F32.le] at hw
    | inf s =>
      rw [hpw] at hw
      cases s
      · simp [F32.le] at hw
      · simp [F32.add, F32.le]
    | fin q =>
      rw [hpw] at hw
      simp only [F32.le, decide_eq_true_eq] at hw
      simp only [F32.add]
      exact round32_le_of_le_value _ 800 (by decide!) (by linarith)
  rw [htest]
  simp

/-- C1, as the code has it. For a player whose width is at most `screenWidth`, if
`player.x` is not NaN after the two key statements, then after `UpdateGame(dt)`
`0 ≤ player.x`, and `player.x` is the binary32 value of `screenWidth - width` or
passes the test of the code (the binary32 sum `player.x + width` is not above
`screenWidth`); at the width 50 of the program this is `player.x ≤ 750`, and a
player at `x = 0` with LEFT held and `dt ≥ 0` is still at `x = 0`. The moved
`player.x` is not NaN when `player.x` is finite, `dt` is not NaN and one key at
most is down or `playerSpeed * dt` is finite. -/
theorem UpdateGame32_player_within_screen (web : Bool) (dt : F32) (inp : Input) (g : Game32)
    (hw : F32.le g.player.width (F32.ofInt screenWidth) = true) :
    ((moveKeys32 dt inp g.player).x ≠ F32.nan →
      F32.le (F32.fin 0) (UpdateGame32 web dt inp g).player.x = true ∧
      ((UpdateGame32 web dt inp g).player.x =
          F32.sub (F32.ofInt screenWidth) (UpdateGame32 web dt inp g).player.width ∨
        F32.lt (F32.ofInt screenWidth)
          (F32.add (UpdateGame32 web dt inp g).player.x
            (UpdateGame32 web dt inp g).player.width) = false) ∧
      (g.player.width = F32.fin 50 → g.player.x.IsValue →
        F32.le (UpdateGame32 web dt inp g).player.x (F32.fin 750) = true) ∧
      (g.player.x = F32.fin 0 → inp.keyLeft = true → F32.le (F32.fin 0) dt = true →
        (UpdateGame32 web dt inp g).player.x = F32.fin 0)) ∧
    (∀ qx : ℚ, g.player.x = F32.fin qx → dt ≠ F32.nan →
      (inp.keyLeft = false ∨ inp.keyRight = false ∨
        ∃ m : ℚ, F32.mul playerSpeed32 dt = F32.fin m) →
      (moveKeys32 dt inp g.player).x ≠ F32.nan) := by
  rw [F32.ofInt_screenWidth] at hw
  have hwk := (moveKeys32_frame dt inp g.player).2.1
  have hwc := (clamp32_frame (moveKeys32 dt inp g.player)).2.1
  refine ⟨fun hn => ⟨?_, ?_, ?_, ?_⟩, fun qx hx hdt hk => moveKeys32_ne_nan dt inp g.player qx hx hdt hk⟩
  · rw [UpdateGame32_player]
    exact clamp32_nonneg _ hn (by rw [hwk]; exact hw)
  · rw [UpdateGame32_player]
    unfold movePlayer32
    rw [hwc]
    exact clamp32_test _
  · intro hw50 hv
    rw [UpdateGame32_player]
    exact clamp32_le_750 _ hn (moveKeys32_isValue dt inp g.player hv) (by rw [hwk]; exact hw50)
  · intro hx hl hdt
    rw [UpdateGame32_player]
    exact movePlayer32_stays_zero dt inp g.player hw hx hl hdt hn

/-- C1, as the spec has it, fails. At `dt = 1e38f` with LEFT and RIGHT down,
`playerSpeed * dt` is infinite and `player.x` becomes NaN, from `x = 375` and from
`x = 0` alike: no clamp fires and neither bound holds. And without any NaN, a
player of width 799.5 at `x = 0.5 + 2^-24` is left where it is, to the right of
`screenWidth - width = 0.5`, because the sum `x + width` rounds to 800. -/
theorem UpdateGame32_player_nan :
    F32.le playing32.player.width (F32.ofInt screenWidth) = true ∧
    playing32.player.x = F32.fin 375 ∧
    F32.mul playerSpeed32 dtHuge = F32.inf false ∧
    (UpdateGame32 true dtHuge bothKeys playing32).player.x = F32.nan ∧
    F32.le (F32.fin 0) (UpdateGame32 true dtHuge bothKeys playing32).player.x = false ∧
    F32.le (UpdateGame32 true dtHuge bothKeys playing32).player.x
      (F32.sub (F32.ofInt screenWidth) playing32.player.width) = false ∧
    (atLeftEdge32.player.x = F32.fin 0 ∧ bothKeys.keyLeft = true ∧
      F32.le (F32.fin 0) dtHuge = true) ∧
    (UpdateGame32 true dtHuge bothKeys atLeftEdge32).player.x = F32.nan ∧
    (F32.le wideGame32.player.width (F32.ofInt screenWidth) = true ∧
      wideGame32.player.x.IsValue ∧ wideGame32.player.width.IsValue) ∧
    (UpdateGame32 true dtSixtieth noKeys wideGame32).player.x =
      F32.fin (1 / 2 + 1 / 16777216) ∧
    F32.sub (F32.ofInt screenWidth) wideGame32.player.width = F32.fin (1 / 2) ∧
    F32.le (UpdateGame32 true dtSixtieth noKeys wideGame32).player.x
      (F32.sub (F32.ofInt screenWidth) wideGame32.player.width) = false := by
  refine ⟨by decide!, by decide!, by decide!, by decide!, by decide!, by decide!,
    ⟨by decide!, rfl, by decide!⟩, by decide!, ⟨by decide!, ?_, ?_⟩, by decide!, by decide!,
    by decide!⟩
  · show round32 (1 / 2 + 1 / 16777216) = F32.fin (1 / 2 + 1 / 16777216)
    decide!
  · show round32 (1599 / 2) = F32.fin (1599 / 2)
    decide!

/-- The binary32 C1 on a player against the left edge, LEFT held, one frame of a
sixtieth of a second: `x` is 0 afterwards, within both bounds. -/
theorem UpdateGame32_player_within_screen_witness :
    (F32.le atLeftEdge32.player.width (F32.ofInt screenWidth) = true ∧
      (moveKeys32 dtSixtieth leftHeld atLeftEdge32.player).x ≠ F32.nan) ∧
    F32.le (F32.fin 0) (UpdateGame32 true dtSixtieth leftHeld atLeftEdge32).player.x = true ∧
    F32.le (UpdateGame32 true dtSixtieth leftHeld atLeftEdge32).player.x (F32.fin 750) = true ∧
    (UpdateGame32 true dtSixtieth leftHeld atLeftEdge32).player.x = F32.fin 0 :=
  have hw : F32.le atLeftEdge32.player.width (F32.ofInt screenWidth) = true := by decide!
  have hn : (moveKeys32 dtSixtieth leftHeld atLeftEdge32.player).x ≠ F32.nan := by decide!
  have hv : atLeftEdge32.player.x.IsValue := by
    show round32 0 = F32.fin 0
    decide!
  have h := (UpdateGame32_player_within_screen true dtSixtieth leftHeld atLeftEdge32 hw).1 hn
  ⟨⟨hw, hn⟩, h.1, h.2.2.1 (by decide!) hv, h.2.2.2 rfl rfl (by decide!)⟩

end FallingGame
